import Mathlib

set_option maxHeartbeats 1000000

/-!
Verification development for the API-credential rotation and rate-limiting
subsystem: shallow embeddings of the manager implementations in
`app/api_key_manager.py`, `app/api_manager.py` and `app.py`, and theorems
about their specified behaviour.

Timestamps are modelled as integers (epoch seconds — the spec declares
sub-second precision a non-goal); selection weights are rationals.
-/

namespace Rotation

/-! ### Usage windows -/

/-- `APIKeyManager._clean_usage_queue` (`app/api_key_manager.py` 329-333):
repeatedly pop the front of the queue while the oldest entry is strictly
older than `now - window`.  On an insertion-ordered queue this is a
`dropWhile`. -/
def cleanUsageQueue (q : List Int) (now window : Int) : List Int :=
  q.dropWhile (fun t => decide (t < now - window))

/-- `APIKeyConfig._clean_old_requests` (`app/api_manager.py` 69-77): rebuild
the tracking list keeping exactly the entries with `t > now - window`. -/
def cleanOldRequests (q : List Int) (now window : Int) : List Int :=
  q.filter (fun t => decide (now - window < t))

/-- One operation on a usage window: `record t` models `record` at time `t`
(append to the queue), `query t` models `count` at time `t` (prune, then
read the remaining length). -/
inductive WindowOp where
  | record (t : Int)
  | query (t : Int)
deriving DecidableEq

/-- The wall-clock time at which an operation happens. -/
def WindowOp.time : WindowOp → Int
  | .record t => t
  | .query t => t

/-- The timestamps recorded by a sequence of operations. -/
def recTimes : List WindowOp → List Int
  | [] => []
  | WindowOp.record t :: ops => t :: recTimes ops
  | WindowOp.query _ :: ops => recTimes ops

/-- Effect of one operation on the deque-based queue of
`app/api_key_manager.py` (`record_request` appends, reads prune via
`_clean_usage_queue`). -/
def stepDeque (window : Int) (q : List Int) : WindowOp → List Int
  | .record t => q ++ [t]
  | .query t => cleanUsageQueue q t window

/-- Run a sequence of operations on the deque-based queue. -/
def runDeque (window : Int) (q : List Int) : List WindowOp → List Int
  | [] => q
  | op :: ops => runDeque window (stepDeque window q op) ops

/-- `count(window, now)` after an interleaving of record/count calls, for
the deque-based manager: prune, then return the remaining length. -/
def countDeque (window now : Int) (ops : List WindowOp) : Nat :=
  (cleanUsageQueue (runDeque window [] ops) now window).length

/-- Effect of one operation on the list-based queue of
`app/api_manager.py` (`record_request` appends, reads prune via
`_clean_old_requests`). -/
def stepFilter (window : Int) (q : List Int) : WindowOp → List Int
  | .record t => q ++ [t]
  | .query t => cleanOldRequests q t window

/-- Run a sequence of operations on the list-based queue. -/
def runFilter (window : Int) (q : List Int) : List WindowOp → List Int
  | [] => q
  | op :: ops => runFilter window (stepFilter window q op) ops

/-- `count(window, now)` after an interleaving of record/count calls, for
the list-based manager. -/
def countFilter (window now : Int) (ops : List WindowOp) : Nat :=
  (cleanOldRequests (runFilter window [] ops) now window).length

/-- The pruning cutoff in force after a sequence of operations, starting
from cutoff `c`. -/
def lastCutoff (window c : Int) : List WindowOp → Int
  | [] => c
  | WindowOp.record _ :: ops => lastCutoff window c ops
  | WindowOp.query t :: ops => lastCutoff window (t - window) ops

/-! ### The deque-based manager (`app/api_key_manager.py`) -/

/-- Static per-key configuration.  Modelled from the spec: the
`APIKeySettings` dataclass lives in `app/config.py`, which is not among the
sources; its fields are exactly those the managers read — the key string,
a display name, the priority (lower preferred), the enabled flag and the
three per-horizon limits. -/
structure APIKeySettings where
  apiKey : String
  name : String
  priority : Int
  enabled : Bool
  maxRequestsPerMinute : Nat
  maxRequestsPerHour : Nat
  maxRequestsPerDay : Nat
deriving DecidableEq

/-- `KeyUsageTracker` (`app/api_key_manager.py` 21-31). -/
structure KeyUsageTracker where
  requestsThisMinute : List Int
  requestsThisHour : List Int
  requestsThisDay : List Int
  lastUsed : Option Int
  consecutiveFailures : Nat
  lastFailureTime : Option Int
  isRateLimited : Bool
  rateLimitResetTime : Option Int
deriving DecidableEq

/-- A freshly constructed `KeyUsageTracker()` with the dataclass defaults. -/
def freshTracker : KeyUsageTracker :=
  { requestsThisMinute := []
    requestsThisHour := []
    requestsThisDay := []
    lastUsed := none
    consecutiveFailures := 0
    lastFailureTime := none
    isRateLimited := false
    rateLimitResetTime := none }

/-- The `_usage_trackers` dict, as a map with `none` for unknown ids. -/
abbrev Trackers := String → Option KeyUsageTracker

/-- `APIKeyManager.record_request` (203-223): lazily create the tracker,
append `now` to the three queues, set `last_used`, reset the failure
counter and clear the rate-limit marker. -/
def recordRequest (st : Trackers) (key : String) (now : Int) : Trackers :=
  let tr := (st key).getD freshTracker
  fun k => if k = key then
    some { tr with
      requestsThisMinute := tr.requestsThisMinute ++ [now]
      requestsThisHour := tr.requestsThisHour ++ [now]
      requestsThisDay := tr.requestsThisDay ++ [now]
      lastUsed := some now
      consecutiveFailures := 0
      isRateLimited := false
      rateLimitResetTime := none }
  else st k

/-- `APIKeyManager.record_rate_limit_error` (225-235): lazily create the
tracker, mark it rate-limited, and set the reset time to the explicit
value when one is supplied and otherwise to `now + 1 minute`
(`reset_time or datetime.now() + timedelta(minutes=1)`).  The failure
counter is not touched. -/
def recordRateLimitError (st : Trackers) (key : String) (now : Int)
    (resetTime : Option Int) : Trackers :=
  let tr := (st key).getD freshTracker
  fun k => if k = key then
    some { tr with
      isRateLimited := true
      rateLimitResetTime := some (resetTime.getD (now + 60)) }
  else st k

/-- `APIKeyManager.record_failure` (237-247): lazily create the tracker,
increment the failure counter and stamp the failure time. -/
def recordFailure (st : Trackers) (key : String) (now : Int) : Trackers :=
  let tr := (st key).getD freshTracker
  fun k => if k = key then
    some { tr with
      consecutiveFailures := tr.consecutiveFailures + 1
      lastFailureTime := some now }
  else st k

/-- `APIKeyManager._is_key_temporarily_disabled` (312-327): with at least 3
consecutive failures and a recorded failure time, the key stays disabled
until strictly more than `min(5 * 2^(failures - 3), 240)` minutes have
passed since the last failure; the first check after that window resets
the failure counter to 0 and reports the key enabled again.  Returns the
verdict together with the (possibly updated) tracker. -/
def isKeyTemporarilyDisabled (tr : KeyUsageTracker) (now : Int) :
    Bool × KeyUsageTracker :=
  if 3 ≤ tr.consecutiveFailures then
    match tr.lastFailureTime with
    | some lft =>
        let backoffMinutes : Nat := min (5 * 2 ^ (tr.consecutiveFailures - 3)) 240
        if 60 * (backoffMinutes : Int) < now - lft then
          (false, { tr with consecutiveFailures := 0 })
        else
          (true, tr)
    | none => (false, tr)
  else (false, tr)

/-- Start of the next calendar day, modelling
`(current_time + timedelta(days=1)).replace(hour=0, minute=0, second=0,
microsecond=0)` on epoch-second timestamps, with the day boundary fixed at
multiples of 86400 (the spec fixes one day-boundary convention
system-wide). -/
def nextMidnight (now : Int) : Int := 86400 * (now.fdiv 86400 + 1)

/-- `APIKeyManager._is_key_within_limits` (273-310): clear an expired
manual rate-limit marker (or refuse while it is active), prune the three
usage queues, then compare each count with its limit; hitting the day
limit additionally marks the key rate-limited until the next midnight.
Returns the verdict together with the updated tracker. -/
def isKeyWithinLimits (cfg : APIKeySettings) (tr : KeyUsageTracker) (now : Int) :
    Bool × KeyUsageTracker :=
  let step1 : Option KeyUsageTracker :=
    if tr.isRateLimited then
      match tr.rateLimitResetTime with
      | some rt =>
          if rt ≤ now then
            some { tr with isRateLimited := false, rateLimitResetTime := none }
          else none
      | none => none
    else some tr
  match step1 with
  | none => (false, tr)
  | some tr1 =>
    let tr2 := { tr1 with
      requestsThisMinute := cleanUsageQueue tr1.requestsThisMinute now 60
      requestsThisHour := cleanUsageQueue tr1.requestsThisHour now 3600
      requestsThisDay := cleanUsageQueue tr1.requestsThisDay now 86400 }
    if cfg.maxRequestsPerMinute ≤ tr2.requestsThisMinute.length then (false, tr2)
    else if cfg.maxRequestsPerHour ≤ tr2.requestsThisHour.length then (false, tr2)
    else if cfg.maxRequestsPerDay ≤ tr2.requestsThisDay.length then
      (false, { tr2 with
        isRateLimited := true
        rateLimitResetTime := some (nextMidnight now) })
    else (true, tr2)

/-- The sort key built by `_priority_based_selection` (181-201): priority
ascending, health score descending (health = 100 - 10*failures -
2*minute-usage, negated for the ascending sort), current minute usage,
failure count, and the key string as the final tie-breaker.  Python
compares these tuples lexicographically, modelled by the `Lex` product
order. -/
def prioritySortKey (st : Trackers) (item : String × APIKeySettings) :
    Lex (Int × Lex (Int × Lex (Nat × Lex (Nat × String)))) :=
  let tr := (st item.1).getD freshTracker
  let health : Int := 100 - 10 * (tr.consecutiveFailures : Int)
      - 2 * (tr.requestsThisMinute.length : Int)
  toLex (item.2.priority, toLex (-health,
    toLex (tr.requestsThisMinute.length, toLex (tr.consecutiveFailures, item.1))))

/-- The comparison `sort` uses in `_priority_based_selection`. -/
def priorityLe (st : Trackers) (a b : String × APIKeySettings) : Bool :=
  decide (prioritySortKey st a ≤ prioritySortKey st b)

/-- `APIKeyManager._priority_based_selection` (181-201): sort the available
list by the tuple key and return the first element (`none` on the empty
list; the source only calls it on a non-empty list). -/
def priorityBasedSelection (st : Trackers) (l : List (String × APIKeySettings)) :
    Option (String × APIKeySettings) :=
  (l.mergeSort (priorityLe st)).head?

/-- The weight `_weighted_random_selection` (136-179) assigns to one
candidate: the product of the priority, usage, failure, recency and
capacity factors, floored at 0.1.  Python floats are modelled as exact
rationals. -/
def finalWeight (st : Trackers) (now : Int) (item : String × APIKeySettings) : ℚ :=
  let tr := (st item.1).getD freshTracker
  let cfg := item.2
  let priorityWeight : ℚ := 10 / ((max cfg.priority 1 : Int) : ℚ)
  let minuteUsage : ℚ := tr.requestsThisMinute.length
  let hourUsage : ℚ := tr.requestsThisHour.length
  let dayUsage : ℚ := tr.requestsThisDay.length
  let minuteFactor : ℚ := 1 / (minuteUsage + 1)
  let hourFactor : ℚ := 1 / (hourUsage + 1)
  let dayFactor : ℚ := 1 / (dayUsage + 1)
  let usageWeight : ℚ := (minuteFactor * 3 + hourFactor * 2 + dayFactor) / 6
  let failureWeight : ℚ := 1 / ((tr.consecutiveFailures : ℚ) + 1)
  let timeWeight : ℚ :=
    match tr.lastUsed with
    | none => 1
    | some lu => min (1 + ((now - lu : Int) : ℚ) / 3600) 2
  let minuteCapacity : ℚ := 1 - minuteUsage / (cfg.maxRequestsPerMinute : ℚ)
  let hourCapacity : ℚ := 1 - hourUsage / (cfg.maxRequestsPerHour : ℚ)
  let dayCapacity : ℚ := 1 - dayUsage / (cfg.maxRequestsPerDay : ℚ)
  let capacityWeight : ℚ := (minuteCapacity + hourCapacity + dayCapacity) / 3
  max (priorityWeight * usageWeight * failureWeight * timeWeight * capacityWeight) (1 / 10)

/-- Claim C6's priority factor, `10 / max(priority, 1)`. -/
def priorityFactor (cfg : APIKeySettings) : ℚ := 10 / ((max cfg.priority 1 : Int) : ℚ)

/-- The usage factor actually present in the source (absent from claim
C6): the weighted average `(3/(m+1) + 2/(h+1) + 1/(d+1)) / 6` of the
inverse per-horizon usage counts. -/
def usageFactor (tr : KeyUsageTracker) : ℚ :=
  (3 / ((tr.requestsThisMinute.length : ℚ) + 1)
    + 2 / ((tr.requestsThisHour.length : ℚ) + 1)
    + 1 / ((tr.requestsThisDay.length : ℚ) + 1)) / 6

/-- Claim C6's failure factor, `1 / (consecutiveFailures + 1)`. -/
def failureFactor (tr : KeyUsageTracker) : ℚ := 1 / ((tr.consecutiveFailures : ℚ) + 1)

/-- The recency factor as the source computes it: `1` for a never-used
credential, otherwise `min(1 + secondsSinceLastUse/3600, 2)`. -/
def recencyFactor (tr : KeyUsageTracker) (now : Int) : ℚ :=
  match tr.lastUsed with
  | none => 1
  | some lu => min (1 + ((now - lu : Int) : ℚ) / 3600) 2

/-- Claim C6's capacity factor: the average of `1 - used/limit` over the
three horizons. -/
def capacityFactor (cfg : APIKeySettings) (tr : KeyUsageTracker) : ℚ :=
  ((1 - (tr.requestsThisMinute.length : ℚ) / (cfg.maxRequestsPerMinute : ℚ))
    + (1 - (tr.requestsThisHour.length : ℚ) / (cfg.maxRequestsPerHour : ℚ))
    + (1 - (tr.requestsThisDay.length : ℚ) / (cfg.maxRequestsPerDay : ℚ))) / 3

/-- The weight formula exactly as claim C6 states it: the product of four
factors only — priority, capacity, failure, recency — with the recency
factor taken as `2` for a never-used credential, floored at 0.1. -/
def claimedWeight (st : Trackers) (now : Int) (item : String × APIKeySettings) : ℚ :=
  let tr := (st item.1).getD freshTracker
  let claimedRecency : ℚ :=
    match tr.lastUsed with
    | none => 2
    | some lu => min (1 + ((now - lu : Int) : ℚ) / 3600) 2
  max (priorityFactor item.2 * capacityFactor item.2 tr * failureFactor tr
    * claimedRecency) (1 / 10)

/-! ### The dataclass manager (`app/api_manager.py`) -/

/-- `APIKeyConfig` (`app/api_manager.py` 12-34): static configuration plus
the mutable rate-limiting state carried on the same object. -/
structure APIKeyConfig where
  key : String
  name : String
  maxRequestsPerMinute : Nat
  maxRequestsPerHour : Nat
  maxRequestsPerDay : Nat
  priority : Int
  enabled : Bool
  cooldownUntil : Option Int
  minuteRequests : List Int
  hourRequests : List Int
  dayRequests : List Int
deriving DecidableEq

/-- Prune the three tracking lists of a key via `_clean_old_requests`. -/
def APIKeyConfig.cleanOld (c : APIKeyConfig) (now : Int) : APIKeyConfig :=
  { c with
    minuteRequests := cleanOldRequests c.minuteRequests now 60
    hourRequests := cleanOldRequests c.hourRequests now 3600
    dayRequests := cleanOldRequests c.dayRequests now 86400 }

/-- The guard `if self.cooldown_until and current_time < self.cooldown_until`:
a stored cooldown timestamp of exactly 0 is falsy in Python and ignored. -/
def cooldownActive (c : APIKeyConfig) (now : Int) : Bool :=
  match c.cooldownUntil with
  | some cu => decide (cu ≠ 0) && decide (now < cu)
  | none => false

/-- `APIKeyConfig.can_make_request` (36-56).  The source prunes the
tracking lists in place before counting; pruning is modelled functionally
(pruned and unpruned lists have identical in-window counts at any later
instant, so not threading the pruned lists changes no verdict below). -/
def canMakeRequest (c : APIKeyConfig) (now : Int) : Bool :=
  if !c.enabled then false
  else if cooldownActive c now then false
  else
    let c' := c.cleanOld now
    decide (c'.minuteRequests.length < c.maxRequestsPerMinute)
      && decide (c'.hourRequests.length < c.maxRequestsPerHour)
      && decide (c'.dayRequests.length < c.maxRequestsPerDay)

/-- `APIKeyConfig.set_cooldown` (79-83). -/
def setCooldown (c : APIKeyConfig) (now durationSeconds : Int) : APIKeyConfig :=
  { c with cooldownUntil := some (now + durationSeconds) }

/-- The `for ... if ... break` idiom of `record_request` and
`handle_rate_limit_error`: apply `f` to the first key with the given id. -/
def updateFirst (keys : List APIKeyConfig) (apiKey : String)
    (f : APIKeyConfig → APIKeyConfig) : List APIKeyConfig :=
  match keys with
  | [] => []
  | c :: rest =>
      if c.key = apiKey then f c :: rest else c :: updateFirst rest apiKey f

/-- `APIKeyManager.handle_rate_limit_error` (158-167): put the named key on
a 24-hour cooldown (86400 s).  There is no explicit-reset-time parameter,
and no per-key failure counter exists in this manager (only a rotation
statistics counter, not modelled, is incremented). -/
def handleRateLimitError (keys : List APIKeyConfig) (apiKey : String)
    (now : Int) : List APIKeyConfig :=
  updateFirst keys apiKey (fun c => setCooldown c now 86400)

/-- `APIKeyConfig.get_next_available_time` (85-114).  `min(list)` on an
empty Python list would raise; that is reachable only with a zero limit
and is modelled as `min?.getD 0`. -/
def keyNextAvailableTime (c : APIKeyConfig) (now : Int) : Option Int :=
  if !c.enabled then none
  else if cooldownActive c now then c.cooldownUntil
  else
    let c' := c.cleanOld now
    let ts : List Int :=
      (if c.maxRequestsPerMinute ≤ c'.minuteRequests.length then
        [(c'.minuteRequests.min?.getD 0) + 60] else [])
      ++ (if c.maxRequestsPerHour ≤ c'.hourRequests.length then
        [(c'.hourRequests.min?.getD 0) + 3600] else [])
      ++ (if c.maxRequestsPerDay ≤ c'.dayRequests.length then
        [(c'.dayRequests.min?.getD 0) + 86400] else [])
    some (ts.min?.getD now)

/-- `APIKeyManager.get_next_available_time` (173-179): minimum over the
per-key next-available times that exist. -/
def getNextAvailableTime (keys : List APIKeyConfig) (now : Int) : Option Int :=
  (keys.filterMap (fun k => keyNextAvailableTime k now)).min?

/-- `APIKeyManager.get_available_key` (140-148) picks uniformly at random
among the keys that can currently make a request; modelled as the first
such key — the claims below depend only on whether one exists. -/
def getAvailableKey (keys : List APIKeyConfig) (now : Int) : Option APIKeyConfig :=
  (keys.filter (fun k => canMakeRequest k now)).head?

/-- Observable outcome of one `wait_for_available_key` call: the key
returned (`none` is the timed-out result), the sequence of sleep durations,
and how many `get_available_key` attempts were made. -/
structure WaitRun where
  found : Option APIKeyConfig
  sleeps : List Int
  attempts : Nat
deriving DecidableEq

/-- Sleep length after an empty attempt (`app/api_manager.py` 213-221):
`min(max(1, next_available - now), wait_time)` when some key has a
next-available time, else `wait_time`. -/
def sleepDuration (keys : List APIKeyConfig) (now waitTime : Int) : Int :=
  match getNextAvailableTime keys now with
  | some t => min (max 1 (t - now)) waitTime
  | none => waitTime

/-- The polling loop of `wait_for_available_key` (203-226), from a state
`elapsed` seconds after `start` with current backoff `wait_time`: while
less than `max_wait_time` seconds have elapsed, attempt selection; after
an empty attempt sleep `sleepDuration` seconds and double the backoff up
to the 60-second cap.  Every sleep is at least 1 s, which bounds the
number of iterations. -/
def waitAux (keys : List APIKeyConfig) (maxWait start elapsed waitTime : Int)
    (hw : 1 ≤ waitTime) : WaitRun :=
  if h : elapsed < maxWait then
    match getAvailableKey keys (start + elapsed) with
    | some k => { found := some k, sleeps := [], attempts := 1 }
    | none =>
        let slp := sleepDuration keys (start + elapsed) waitTime
        have hslp : 1 ≤ slp := by
          simp only [slp, sleepDuration]
          cases getNextAvailableTime keys (start + elapsed) <;> simp <;> omega
        let rest := waitAux keys maxWait start (elapsed + slp)
          (min (waitTime * 2) 60) (by omega)
        { found := rest.found, sleeps := slp :: rest.sleeps
          attempts := rest.attempts + 1 }
  else { found := none, sleeps := [], attempts := 0 }
termination_by (maxWait - elapsed).toNat
decreasing_by
  omega

/-- `APIKeyManager.wait_for_available_key` (203-226), started at absolute
time `start` with budget `maxWait` seconds. -/
def waitForAvailableKey (keys : List APIKeyConfig) (maxWait start : Int) : WaitRun :=
  waitAux keys maxWait start 0 1 (by omega)

/-! ### `AdvancedAPIKeyManager` (`app.py`) -/

/-- One entry of `self.api_keys` built in `AdvancedAPIKeyManager.__init__`
(`app.py` 63-72). -/
structure AdvKeyConfig where
  apiKey : String
  name : String
  maxRequestsPerMinute : Nat
  maxRequestsPerHour : Nat
  maxRequestsPerDay : Nat
  priority : Int
  enabled : Bool
deriving DecidableEq

/-- One `usage_stats` dict entry (`app.py` 74-79). -/
structure AdvUsageStats where
  requestsThisMinute : List Int
  requestsThisHour : List Int
  requestsThisDay : List Int
  totalRequests : Nat
deriving DecidableEq

/-- Mutable state of `AdvancedAPIKeyManager` (`app.py` 53-96).  Python
dicts are modelled as maps returning `none` for an absent id;
`disabled_keys` and `last_used` can store `None` as a value, so presence
and value are separated there.  The file persistence (`persist_status`)
performs no state change on these fields and is not modelled. -/
structure AdvState where
  usageStats : String → Option AdvUsageStats
  disabledKeys : String → Option (Option Int)
  failureCounts : String → Option Nat
  lastUsed : String → Option (Option Int)
  lastRateLimit : String → Option Int

/-- The per-entry pruning of `_clean_old_usage_data` (98-119): keep the
entries with `current_time - t < window`. -/
def advPrune (s : AdvUsageStats) (now : Int) : AdvUsageStats :=
  { s with
    requestsThisMinute := s.requestsThisMinute.filter (fun t => decide (now - t < 60))
    requestsThisHour := s.requestsThisHour.filter (fun t => decide (now - t < 3600))
    requestsThisDay := s.requestsThisDay.filter (fun t => decide (now - t < 86400)) }

/-- `_clean_old_usage_data` (98-119): raises `KeyError` (modelled `none`)
for an id absent from `usage_stats`; otherwise stores the pruned entry. -/
def cleanOldUsageData (st : AdvState) (key : String) (now : Int) : Option AdvState :=
  match st.usageStats key with
  | none => none
  | some s =>
      some { st with usageStats := fun k =>
        if k = key then some (advPrune s now) else st.usageStats k }

/-- `_disable_key_for_rate_limit` (164-170): 24-hour cooldown. -/
def disableKeyForRateLimit (st : AdvState) (key : String) (now : Int) : AdvState :=
  { st with disabledKeys := fun k =>
      if k = key then some (some (now + 86400)) else st.disabledKeys k }

/-- The limit comparison at the end of `_is_key_available` (142-162):
prune, then check the three counters; a hit day limit additionally sets
the 24-hour cooldown. -/
def advLimitCheck (st : AdvState) (cfg : AdvKeyConfig) (now : Int) :
    Option (Bool × AdvState) :=
  match cleanOldUsageData st cfg.apiKey now with
  | none => none
  | some st1 =>
      match st1.usageStats cfg.apiKey with
      | none => none
      | some s =>
          if cfg.maxRequestsPerMinute ≤ s.requestsThisMinute.length then
            some (false, st1)
          else if cfg.maxRequestsPerHour ≤ s.requestsThisHour.length then
            some (false, st1)
          else if cfg.maxRequestsPerDay ≤ s.requestsThisDay.length then
            some (false, disableKeyForRateLimit st1 cfg.apiKey now)
          else some (true, st1)

/-- `_is_key_available` (121-162).  Not read-only: an expired cooldown
entry is deleted (resetting that key's failure count to 0), the usage data
is pruned, and a hit day limit sets the 24-hour cooldown.  Returns the
verdict and the updated state; `none` models the `KeyError` raised by
`_clean_old_usage_data` for an unregistered id. -/
def isKeyAvailable (st : AdvState) (cfg : AdvKeyConfig) (now : Int) :
    Option (Bool × AdvState) :=
  if !cfg.enabled then some (false, st)
  else
    match st.disabledKeys cfg.apiKey with
    | some (some du) =>
        if now < du then some (false, st)
        else
          advLimitCheck
            { st with
              disabledKeys := fun k =>
                if k = cfg.apiKey then none else st.disabledKeys k
              failureCounts := fun k =>
                if k = cfg.apiKey then some 0 else st.failureCounts k }
            cfg now
    | _ => advLimitCheck st cfg now

/-- `record_successful_request` (238-257): raises `KeyError` (modelled
`none`) for an id absent from `usage_stats`; otherwise appends the
timestamp to the three windows, bumps the total, sets `last_used` and
resets the failure count.  The cooldown (`disabled_keys`) and rate-limit
(`last_rate_limit`) markers are NOT touched. -/
def advRecordSuccess (st : AdvState) (key : String) (now : Int) : Option AdvState :=
  match st.usageStats key with
  | none => none
  | some s =>
      some { st with
        usageStats := fun k =>
          if k = key then
            some { s with
              requestsThisMinute := s.requestsThisMinute ++ [now]
              requestsThisHour := s.requestsThisHour ++ [now]
              requestsThisDay := s.requestsThisDay ++ [now]
              totalRequests := s.totalRequests + 1 }
          else st.usageStats k
        lastUsed := fun k => if k = key then some (some now) else st.lastUsed k
        failureCounts := fun k => if k = key then some 0 else st.failureCounts k }

/-- `record_rate_limit_error` (259-268): sets the 24-hour cooldown only
when this is the second rate-limit signal within 60 s (a falsy stored
stamp of exactly 0 is ignored); always stamps `last_rate_limit` and
increments the failure count.  An id absent from `failure_counts` raises
`KeyError`, modelled `none` (the partial updates Python performs before
that raise are not modelled). -/
def advRecordRateLimit (st : AdvState) (key : String) (now : Int) : Option AdvState :=
  let doubled : Bool :=
    match st.lastRateLimit key with
    | some l => decide (l ≠ 0) && decide (now - l < 60)
    | none => false
  let st1 := if doubled then disableKeyForRateLimit st key now else st
  match st1.failureCounts key with
  | none => none
  | some n =>
      some { st1 with
        lastRateLimit := fun k => if k = key then some now else st1.lastRateLimit k
        failureCounts := fun k => if k = key then some (n + 1) else st1.failureCounts k }

/-- `record_failure` (270-284): increment the failure count (`KeyError`,
modelled `none`, for an unknown id); at 5 or more consecutive failures
disable the key for `min(5 * 2^(failures - 5), 240)` minutes from now. -/
def advRecordFailure (st : AdvState) (key : String) (now : Int) : Option AdvState :=
  match st.failureCounts key with
  | none => none
  | some n =>
      let n1 := n + 1
      let st1 := { st with failureCounts := fun k =>
        if k = key then some n1 else st.failureCounts k }
      if 5 ≤ n1 then
        let backoffMinutes : Nat := min (5 * 2 ^ (n1 - 5)) 240
        some { st1 with disabledKeys := fun k =>
          if k = key then some (some (now + 60 * (backoffMinutes : Int)))
          else st1.disabledKeys k }
      else some st1

/-- `_calculate_key_score` (172-204).  The dict reads
(`usage_stats[key]`, `failure_counts[key]`, `last_used[key]`) raise for
unregistered ids in the source and are modelled with defaults; every
configured id is registered by `__init__`.  A `last_used` stamp of exactly
0 is falsy in Python and treated as never used. -/
def advKeyScore (st : AdvState) (cfg : AdvKeyConfig) (now : Int) : ℚ :=
  let s := (st.usageStats cfg.apiKey).getD
    { requestsThisMinute := [], requestsThisHour := [], requestsThisDay := []
      totalRequests := 0 }
  let priorityScore : ℚ := 10 / ((max cfg.priority 1 : Int) : ℚ)
  let m : ℚ := s.requestsThisMinute.length
  let hr : ℚ := s.requestsThisHour.length
  let d : ℚ := s.requestsThisDay.length
  let capacityScore : ℚ :=
    ((1 - m / (cfg.maxRequestsPerMinute : ℚ)) + (1 - hr / (cfg.maxRequestsPerHour : ℚ))
      + (1 - d / (cfg.maxRequestsPerDay : ℚ))) / 3
  let failureScore : ℚ := 1 / ((((st.failureCounts cfg.apiKey).getD 0 : Nat) : ℚ) + 1)
  let timeScore : ℚ :=
    match (st.lastUsed cfg.apiKey).getD none with
    | none => 1
    | some lu =>
        if lu = 0 then 1 else min (1 + ((now - lu : Int) : ℚ) / 3600) 2
  max (priorityScore * capacityScore * failureScore * timeScore) (1 / 10)

/-- The eligibility filter of `get_available_api_key` (206-219): enabled,
not under an active cooldown (a falsy stored value is ignored), and not
rate-limited within the last 60 s. -/
def advEligible (st : AdvState) (cfg : AdvKeyConfig) (now : Int) : Bool :=
  cfg.enabled
    && (match st.disabledKeys cfg.apiKey with
        | some (some du) => !(decide (du ≠ 0) && decide (now < du))
        | _ => true)
    && (match st.lastRateLimit cfg.apiKey with
        | some l => !(decide (l ≠ 0) && decide (now - l < 60))
        | none => true)

/-- Sort key of the non-random branch of `get_available_api_key`
(228-233): `(priority, -score, failure count, key)`, compared
lexicographically. -/
def advSortKey (st : AdvState) (now : Int) (cfg : AdvKeyConfig) :
    Lex (Int × Lex (ℚ × Lex (Nat × String))) :=
  toLex (cfg.priority, toLex (-(advKeyScore st cfg now),
    toLex ((st.failureCounts cfg.apiKey).getD 0, cfg.apiKey)))

/-- `get_available_api_key` with `use_random = False` (206-236): filter the
eligible keys, sort by `advSortKey`, return the first (with its id). -/
def advPrioritySelect (st : AdvState) (keys : List AdvKeyConfig) (now : Int) :
    Option (String × AdvKeyConfig) :=
  let available := keys.filter (fun c => advEligible st c now)
  if available.isEmpty then none
  else
    ((available.mergeSort
      (fun a b => decide (advSortKey st now a ≤ advSortKey st now b))).head?).map
      (fun c => (c.apiKey, c))

/-- The state effect of `get_keys_status` (286-322): for each configured
key, prune its usage data and run `_is_key_available`, then read
`failure_counts[key]` and `last_used[key]` for the report (reads that
raise `KeyError`, modelled `none`, when absent).  The returned report list
itself does not affect the state and is not modelled. -/
def getKeysStatusState (st : AdvState) (keys : List AdvKeyConfig) (now : Int) :
    Option AdvState :=
  match keys with
  | [] => some st
  | cfg :: rest =>
      match cleanOldUsageData st cfg.apiKey now with
      | none => none
      | some st1 =>
          match isKeyAvailable st1 cfg now with
          | none => none
          | some (_, st2) =>
              match st2.failureCounts cfg.apiKey, st2.lastUsed cfg.apiKey with
              | some _, some _ => getKeysStatusState st2 rest now
              | _, _ => none

/-! ### Concrete states used by witnesses and counterexamples -/

/-- The empty `AdvancedAPIKeyManager` state: no id registered anywhere. -/
def advEmpty : AdvState :=
  { usageStats := fun _ => none
    disabledKeys := fun _ => none
    failureCounts := fun _ => none
    lastUsed := fun _ => none
    lastRateLimit := fun _ => none }

/-- An empty usage entry. -/
def advFreshStats : AdvUsageStats :=
  { requestsThisMinute := [], requestsThisHour := [], requestsThisDay := []
    totalRequests := 0 }

/-- The tuple claim C5 specifies — (priority, health descending,
minute-usage, failures, id) with health = 100 - 10*failures -
2*minuteUsage — built for an `AdvancedAPIKeyManager` candidate
(spec-side definition, for comparison with `advPrioritySelect`). -/
def claimedTuple (st : AdvState) (cfg : AdvKeyConfig) :
    Lex (Int × Lex (Int × Lex (Nat × Lex (Nat × String)))) :=
  let cf : Nat := (st.failureCounts cfg.apiKey).getD 0
  let mu : Nat := ((st.usageStats cfg.apiKey).getD advFreshStats).requestsThisMinute.length
  let health : Int := 100 - 10 * (cf : Int) - 2 * (mu : Int)
  toLex (cfg.priority, toLex (-health, toLex (mu, toLex (cf, cfg.apiKey))))

/-- Non-random selection exactly as claim C5 states it, applied to the
`AdvancedAPIKeyManager` candidates: first eligible candidate under the
claimed tuple order (spec-side definition). -/
def claimedTupleSelect (st : AdvState) (keys : List AdvKeyConfig) (now : Int) :
    Option String :=
  (((keys.filter (fun c => advEligible st c now)).mergeSort
    (fun a b => decide (claimedTuple st a ≤ claimedTuple st b))).head?).map
    (fun c => c.apiKey)

/-- A tracker four consecutive failures deep, last failure at time 0. -/
def trBackoff : KeyUsageTracker :=
  { freshTracker with consecutiveFailures := 4, lastFailureTime := some 0 }

/-- A priority-1 configuration with the default limits. -/
def cfgW : APIKeySettings :=
  { apiKey := "k", name := "k", priority := 1, enabled := true
    maxRequestsPerMinute := 60, maxRequestsPerHour := 3600
    maxRequestsPerDay := 86400 }

/-- One registered, never-used credential. -/
def stFresh : Trackers := fun k => if k = "k" then some freshTracker else none

/-- A tracker with one request in each window, last used at time 0. -/
def trUsedOnce : KeyUsageTracker :=
  { freshTracker with
    requestsThisMinute := [0], requestsThisHour := [0], requestsThisDay := [0]
    lastUsed := some 0 }

/-- One registered credential that has been used once. -/
def stUsedOnce : Trackers := fun k => if k = "k" then some trUsedOnce else none

/-- `AdvancedAPIKeyManager` state with the single registered id `k`. -/
def advStateOneKey : AdvState :=
  { usageStats := fun k => if k = "k" then some advFreshStats else none
    disabledKeys := fun _ => none
    failureCounts := fun k => if k = "k" then some 0 else none
    lastUsed := fun k => if k = "k" then some none else none
    lastRateLimit := fun _ => none }

/-- Like `advStateOneKey` but with `k` on cooldown until time 1000. -/
def advCooldownState : AdvState :=
  { advStateOneKey with
    disabledKeys := fun k => if k = "k" then some (some 1000) else none }

/-- The configuration entry for id `k` in `AdvancedAPIKeyManager`. -/
def advCfgK : AdvKeyConfig :=
  { apiKey := "k", name := "k", maxRequestsPerMinute := 60
    maxRequestsPerHour := 3600, maxRequestsPerDay := 86400
    priority := 1, enabled := true }

/-- A usage entry with one request at time 0 in each window. -/
def advStatusStats : AdvUsageStats :=
  { requestsThisMinute := [0], requestsThisHour := [0], requestsThisDay := [0]
    totalRequests := 1 }

/-- State of `AdvancedAPIKeyManager` for the status-endpoint claims: one
registered id `k` used once at time 0. -/
def advStatusState : AdvState :=
  { advStateOneKey with
    usageStats := fun k => if k = "k" then some advStatusStats else none }

/-- `AdvancedAPIKeyManager` state with id `k` at four consecutive
failures and no cooldown. -/
def advFourFailState : AdvState :=
  { advStateOneKey with
    failureCounts := fun k => if k = "k" then some 4 else none }

/-- `AdvancedAPIKeyManager` state with id `k` at five consecutive
failures, disabled until time 300 (the 5-minute backoff stamped by the
fifth failure at time 0). -/
def advExpiredState : AdvState :=
  { advStateOneKey with
    failureCounts := fun k => if k = "k" then some 5 else none
    disabledKeys := fun k => if k = "k" then some (some 300) else none }

/-- Candidate `a` for the priority-selection comparison. -/
def advCfgA : AdvKeyConfig :=
  { apiKey := "a", name := "a", maxRequestsPerMinute := 100
    maxRequestsPerHour := 100, maxRequestsPerDay := 100
    priority := 1, enabled := true }

/-- Candidate `b` for the priority-selection comparison. -/
def advCfgB : AdvKeyConfig :=
  { apiKey := "b", name := "b", maxRequestsPerMinute := 100
    maxRequestsPerHour := 100, maxRequestsPerDay := 100
    priority := 1, enabled := true }

/-- State in which `a` and `b` tie on the claimed tuple (same priority, no
minute usage, no failures) but differ in hour usage, which only the
weighted score of `_calculate_key_score` sees. -/
def advTieState : AdvState :=
  { usageStats := fun k =>
      if k = "a" then
        some { requestsThisMinute := []
               requestsThisHour := [0, 0, 0, 0, 0, 0, 0, 0, 0, 0]
               requestsThisDay := [], totalRequests := 10 }
      else if k = "b" then some advFreshStats
      else none
    disabledKeys := fun _ => none
    failureCounts := fun k => if k = "a" ∨ k = "b" then some 0 else none
    lastUsed := fun k => if k = "a" ∨ k = "b" then some none else none
    lastRateLimit := fun _ => none }

/-- An enabled key with free limits, available at any time. -/
def cfgAvail : APIKeyConfig :=
  { key := "k", name := "k", maxRequestsPerMinute := 1
    maxRequestsPerHour := 1, maxRequestsPerDay := 1, priority := 1
    enabled := true, cooldownUntil := none
    minuteRequests := [], hourRequests := [], dayRequests := [] }

/-- Registered trackers for the priority-selection witness: `p` and `q`,
where `q` carries one consecutive failure. -/
def stSelect : Trackers := fun k =>
  if k = "q" then some { freshTracker with consecutiveFailures := 1 }
  else if k = "p" then some freshTracker
  else none

/-- Candidate `p` (priority 1, clean tracker). -/
def itemP : String × APIKeySettings :=
  ("p", { apiKey := "p", name := "p", priority := 1, enabled := true
          maxRequestsPerMinute := 60, maxRequestsPerHour := 3600
          maxRequestsPerDay := 86400 })

/-- Candidate `q` (priority 1, one failure). -/
def itemQ : String × APIKeySettings :=
  ("q", { apiKey := "q", name := "q", priority := 1, enabled := true
          maxRequestsPerMinute := 60, maxRequestsPerHour := 3600
          maxRequestsPerDay := 86400 })

lemma dropWhile_append_single {p : Int → Bool} {t : Int} (h : p t = false) :
    ∀ l : List Int, (l ++ [t]).dropWhile p = l.dropWhile p ++ [t] := by
  intro l
  induction l with
  | nil => simp [List.dropWhile_cons, h]
  | cons a l ih =>
    by_cases ha : p a
    · simp [List.dropWhile_cons, ha, ih]
    · simp [List.dropWhile_cons, ha]

lemma dropWhile_lt_dropWhile_lt {c₁ c₂ : Int} (h : c₁ ≤ c₂) (l : List Int) :
    (l.dropWhile (fun t => decide (t < c₁))).dropWhile (fun t => decide (t < c₂))
      = l.dropWhile (fun t => decide (t < c₂)) := by
  induction l with
  | nil => rfl
  | cons a l ih =>
    by_cases h1 : a < c₁
    · have h2 : a < c₂ := lt_of_lt_of_le h1 h
      simp [List.dropWhile_cons, h1, h2, ih]
    · simp [List.dropWhile_cons, h1]

lemma dropWhile_eq_filter_of_sorted :
    ∀ {l : List Int}, l.Pairwise (· ≤ ·) → ∀ c : Int,
      l.dropWhile (fun t => decide (t < c)) = l.filter (fun t => decide (c ≤ t)) := by
  intro l hl c
  induction l with
  | nil => rfl
  | cons a l ih =>
    rcases List.pairwise_cons.mp hl with ⟨hall, htail⟩
    by_cases h1 : a < c
    · have h2 : ¬ c ≤ a := not_le.mpr h1
      simp [List.dropWhile_cons, List.filter_cons, h1, h2, ih htail]
    · have hca : c ≤ a := not_lt.mp h1
      have hfl : l.filter (fun t => decide (c ≤ t)) = l := by
        apply List.filter_eq_self.mpr
        intro x hx
        exact decide_eq_true (le_trans hca (hall x hx))
      simp [List.dropWhile_cons, List.filter_cons, h1, hca, hfl]

lemma runDeque_eq {window : Int} (hw : 0 ≤ window) :
    ∀ (ops : List WindowOp) (l : List Int) (c : Int),
      (ops.map WindowOp.time).Pairwise (· ≤ ·) →
      (∀ t ∈ ops.map WindowOp.time, c ≤ t - window) →
      runDeque window (l.dropWhile (fun t => decide (t < c))) ops
        = (l ++ recTimes ops).dropWhile
            (fun t => decide (t < lastCutoff window c ops)) := by
  intro ops
  induction ops with
  | nil => intro l c _ _; simp [runDeque, lastCutoff, recTimes]
  | cons op ops ih =>
    intro l c hmono hbound
    simp only [List.map_cons, List.pairwise_cons] at hmono
    obtain ⟨hall, htail⟩ := hmono
    cases op with
    | record t =>
      have hct : c ≤ t - window := hbound t (by simp [WindowOp.time])
      have hnot : (fun s => decide (s < c)) t = false := by
        simp only [decide_eq_false_iff_not, not_lt]
        omega
      have hstep : stepDeque window (l.dropWhile (fun s => decide (s < c))) (WindowOp.record t)
          = (l ++ [t]).dropWhile (fun s => decide (s < c)) := by
        simp only [stepDeque]
        exact (dropWhile_append_single hnot l).symm
      have hb : ∀ s ∈ ops.map WindowOp.time, c ≤ s - window := by
        intro s hs
        exact hbound s (by simp [hs])
      calc runDeque window (l.dropWhile (fun s => decide (s < c))) (WindowOp.record t :: ops)
          = runDeque window ((l ++ [t]).dropWhile (fun s => decide (s < c))) ops := by
            rw [runDeque, hstep]
        _ = ((l ++ [t]) ++ recTimes ops).dropWhile
              (fun s => decide (s < lastCutoff window c ops)) := ih (l ++ [t]) c htail hb
        _ = (l ++ recTimes (WindowOp.record t :: ops)).dropWhile
              (fun s => decide (s < lastCutoff window c (WindowOp.record t :: ops))) := by
            simp [recTimes, lastCutoff, List.append_assoc]
    | query t =>
      have hct : c ≤ t - window := hbound t (by simp [WindowOp.time])
      have hstep : stepDeque window (l.dropWhile (fun s => decide (s < c))) (WindowOp.query t)
          = l.dropWhile (fun s => decide (s < t - window)) := by
        simp only [stepDeque, cleanUsageQueue]
        exact dropWhile_lt_dropWhile_lt hct l
      have hb : ∀ s ∈ ops.map WindowOp.time, t - window ≤ s - window := by
        intro s hs
        have hts : WindowOp.time (WindowOp.query t) ≤ s := hall s hs
        simp only [WindowOp.time] at hts
        omega
      calc runDeque window (l.dropWhile (fun s => decide (s < c))) (WindowOp.query t :: ops)
          = runDeque window (l.dropWhile (fun s => decide (s < t - window))) ops := by
            rw [runDeque, hstep]
        _ = (l ++ recTimes ops).dropWhile
              (fun s => decide (s < lastCutoff window (t - window) ops)) :=
            ih l (t - window) htail hb
        _ = (l ++ recTimes (WindowOp.query t :: ops)).dropWhile
              (fun s => decide (s < lastCutoff window c (WindowOp.query t :: ops))) := by
            simp [recTimes, lastCutoff]

lemma filter_gt_filter_gt {c₁ c₂ : Int} (h : c₁ ≤ c₂) (l : List Int) :
    (l.filter (fun t => decide (c₁ < t))).filter (fun t => decide (c₂ < t))
      = l.filter (fun t => decide (c₂ < t)) := by
  induction l with
  | nil => rfl
  | cons a l ih =>
    by_cases h1 : c₁ < a
    · simp [List.filter_cons, h1, ih]
    · have h2 : ¬ c₂ < a := by omega
      simp [List.filter_cons, h1, h2, ih]

lemma runFilter_eq {window : Int} (hw : 0 < window) :
    ∀ (ops : List WindowOp) (l : List Int) (c : Int),
      (ops.map WindowOp.time).Pairwise (· ≤ ·) →
      (∀ t ∈ ops.map WindowOp.time, c ≤ t - window) →
      runFilter window (l.filter (fun t => decide (c < t))) ops
        = (l ++ recTimes ops).filter
            (fun t => decide (lastCutoff window c ops < t)) := by
  intro ops
  induction ops with
  | nil => intro l c _ _; simp [runFilter, lastCutoff, recTimes]
  | cons op ops ih =>
    intro l c hmono hbound
    simp only [List.map_cons, List.pairwise_cons] at hmono
    obtain ⟨hall, htail⟩ := hmono
    cases op with
    | record t =>
      have hct : c ≤ t - window := hbound t (by simp [WindowOp.time])
      have hc : c < t := by omega
      have hstep : stepFilter window (l.filter (fun s => decide (c < s))) (WindowOp.record t)
          = (l ++ [t]).filter (fun s => decide (c < s)) := by
        simp [stepFilter, List.filter_append, List.filter_cons, hc]
      have hb : ∀ s ∈ ops.map WindowOp.time, c ≤ s - window := by
        intro s hs
        exact hbound s (by simp [hs])
      calc runFilter window (l.filter (fun s => decide (c < s))) (WindowOp.record t :: ops)
          = runFilter window ((l ++ [t]).filter (fun s => decide (c < s))) ops := by
            rw [runFilter, hstep]
        _ = ((l ++ [t]) ++ recTimes ops).filter
              (fun s => decide (lastCutoff window c ops < s)) := ih (l ++ [t]) c htail hb
        _ = (l ++ recTimes (WindowOp.record t :: ops)).filter
              (fun s => decide (lastCutoff window c (WindowOp.record t :: ops) < s)) := by
            simp [recTimes, lastCutoff, List.append_assoc]
    | query t =>
      have hct : c ≤ t - window := hbound t (by simp [WindowOp.time])
      have hstep : stepFilter window (l.filter (fun s => decide (c < s))) (WindowOp.query t)
          = l.filter (fun s => decide (t - window < s)) := by
        simp only [stepFilter, cleanOldRequests]
        exact filter_gt_filter_gt hct l
      have hb : ∀ s ∈ ops.map WindowOp.time, t - window ≤ s - window := by
        intro s hs
        have hts : WindowOp.time (WindowOp.query t) ≤ s := hall s hs
        simp only [WindowOp.time] at hts
        omega
      calc runFilter window (l.filter (fun s => decide (c < s))) (WindowOp.query t :: ops)
          = runFilter window (l.filter (fun s => decide (t - window < s))) ops := by
            rw [runFilter, hstep]
        _ = (l ++ recTimes ops).filter
              (fun s => decide (lastCutoff window (t - window) ops < s)) :=
            ih l (t - window) htail hb
        _ = (l ++ recTimes (WindowOp.query t :: ops)).filter
              (fun s => decide (lastCutoff window c (WindowOp.query t :: ops) < s)) := by
            simp [recTimes, lastCutoff]

lemma lastCutoff_le {window c now : Int} (hc : c ≤ now - window) :
    ∀ ops : List WindowOp, (∀ t ∈ ops.map WindowOp.time, t ≤ now) →
      lastCutoff window c ops ≤ now - window := by
  intro ops
  induction ops generalizing c with
  | nil => intro _; simpa [lastCutoff] using hc
  | cons op ops ih =>
    intro hall
    cases op with
    | record t =>
      exact ih hc (fun s hs => hall s (by simp [hs]))
    | query t =>
      have ht : t ≤ now := hall t (by simp [WindowOp.time])
      exact ih (by omega) (fun s hs => hall s (by simp [hs]))

lemma recTimes_sublist :
    ∀ ops : List WindowOp, List.Sublist (recTimes ops) (ops.map WindowOp.time) := by
  intro ops
  induction ops with
  | nil => simp [recTimes]
  | cons op ops ih =>
    cases op with
    | record t => exact List.Sublist.cons₂ t ih
    | query t => exact List.Sublist.cons t ih

/-- Claim C1 (amended): sliding-window counts are exact for any interleaving
of record/count calls at non-decreasing times not later than `now`, but the
two cited pruning routines disagree at the window boundary.  The deque-based
manager (`_clean_usage_queue`, which prunes `timestamp < now - horizon`)
counts exactly the recorded timestamps in the closed interval
`[now - horizon, now]`, as the claim states; the list-based manager
(`_clean_old_requests`, which keeps only `timestamp > now - horizon`) counts
exactly the recorded timestamps in the half-open interval
`(now - horizon, now]`, dropping a timestamp that is exactly `horizon` old.
This holds for every positive horizon, in particular for minute = 60 s,
hour = 3600 s and day = 86400 s. -/
theorem countExact (window now : Int) (hw : 0 < window) (ops : List WindowOp)
    (hmono : (ops.map WindowOp.time).Pairwise (· ≤ ·))
    (hnow : ∀ t ∈ ops.map WindowOp.time, t ≤ now) :
    countDeque window now ops
        = ((recTimes ops).filter (fun t => decide (now - window ≤ t ∧ t ≤ now))).length
      ∧ countFilter window now ops
        = ((recTimes ops).filter (fun t => decide (now - window < t ∧ t ≤ now))).length := by
  have hrecnow : ∀ t ∈ recTimes ops, t ≤ now := by
    intro t ht
    exact hnow t ((recTimes_sublist ops).subset ht)
  have hrs : (recTimes ops).Pairwise (· ≤ ·) := hmono.sublist (recTimes_sublist ops)
  cases ops with
  | nil =>
    simp [countDeque, countFilter, runDeque, runFilter, cleanUsageQueue,
      cleanOldRequests, recTimes]
  | cons op ops' =>
    simp only [List.map_cons, List.pairwise_cons] at hmono
    obtain ⟨hall, htail⟩ := hmono
    have hopnow : op.time ≤ now := hnow op.time (by simp)
    have hbound : ∀ t ∈ (op :: ops').map WindowOp.time, op.time - window ≤ t - window := by
      intro t ht
      simp only [List.map_cons, List.mem_cons] at ht
      rcases ht with rfl | ht
      · omega
      · have := hall t ht
        omega
    have hlc : lastCutoff window (op.time - window) (op :: ops') ≤ now - window := by
      apply lastCutoff_le (by omega)
      exact hnow
    have hmono' : ((op :: ops').map WindowOp.time).Pairwise (· ≤ ·) := by
      simp only [List.map_cons, List.pairwise_cons]
      exact ⟨hall, htail⟩
    constructor
    · have hrun := @runDeque_eq window (by omega) (op :: ops') []
        (op.time - window) hmono' hbound
      simp only [List.dropWhile_nil, List.nil_append] at hrun
      have : countDeque window now (op :: ops')
          = (((recTimes (op :: ops')).dropWhile
              (fun t => decide (t < lastCutoff window (op.time - window) (op :: ops')))).dropWhile
              (fun t => decide (t < now - window))).length := by
        simp only [countDeque, hrun, cleanUsageQueue]
      rw [this, dropWhile_lt_dropWhile_lt hlc, dropWhile_eq_filter_of_sorted hrs]
      congr 1
      apply List.filter_congr
      intro x hx
      have hxn : x ≤ now := hrecnow x hx
      by_cases hc : now - window ≤ x <;> simp [hc, hxn]
    · have hrun := @runFilter_eq window hw (op :: ops') []
        (op.time - window) hmono' hbound
      simp only [List.filter_nil, List.nil_append] at hrun
      have : countFilter window now (op :: ops')
          = (((recTimes (op :: ops')).filter
              (fun t => decide (lastCutoff window (op.time - window) (op :: ops') < t))).filter
              (fun t => decide (now - window < t))).length := by
        simp only [countFilter, hrun, cleanOldRequests]
      rw [this, filter_gt_filter_gt hlc]
      congr 1
      apply List.filter_congr
      intro x hx
      have hxn : x ≤ now := hrecnow x hx
      by_cases hc : now - window < x <;> simp [hc, hxn]

/-- Claim C1, counterexample: for the list-based manager
(`APIKeyConfig._clean_old_requests`), a timestamp recorded exactly `horizon`
seconds before `now` lies in `[now - horizon, now]` but is pruned, so the
count is 0 where the claim requires 1: the pruning condition there is
`timestamp <= now - horizon`, not `timestamp < now - horizon`. -/
theorem countFilter_boundary_cex :
    countFilter 60 60 [WindowOp.record 0] = 0 ∧
    ((recTimes [WindowOp.record 0]).filter
        (fun t => decide (60 - 60 ≤ t ∧ t ≤ 60))).length = 1 := by
  exact ⟨rfl, rfl⟩

/-- Witness for `countExact` at a concrete interleaving: record at 50,
count at 70, record at 90, final count at 100 with a 60-second horizon. -/
theorem countExact_witness :
    countDeque 60 100 [WindowOp.record 50, WindowOp.query 70, WindowOp.record 90] = 2 ∧
    countFilter 60 100 [WindowOp.record 50, WindowOp.query 70, WindowOp.record 90] = 2 := by
  have h := countExact 60 100 (by decide)
    [WindowOp.record 50, WindowOp.query 70, WindowOp.record 90] (by decide) (by decide)
  exact ⟨h.1.trans (by rfl), h.2.trans (by rfl)⟩

/-- Claim C2 (amended): the two cited implementations differ.  In the
deque-based manager the claim holds: for a tracker whose failure count has
reached the threshold 3 with a recorded last-failure time,
`_is_key_temporarily_disabled` reports the key disabled (tracker
unchanged) while `now - lastFailureTime` is within
`min(5 * 2^(failures - 3), 240)` minutes of the last failure, at any later
instant the same check resets the counter to 0 and reports the key
enabled, and no other operation there lowers the counter
(`_is_key_within_limits` never changes it, `record_failure` adds exactly
one, `record_rate_limit_error` leaves it).  In `AdvancedAPIKeyManager`
the threshold is 5, not 3: `record_failure` below 5 accumulated failures
only increments the counter and sets no cooldown (3 failures leave the
key fully eligible), at 5 or more it stamps a cooldown of
`min(5 * 2^(failures - 5), 240)` minutes from the failure itself, and the
selection-path eligibility filter of `get_available_api_key` re-enables
an expired cooldown without resetting `consecutiveFailures` (it is a pure
check; only the status-path `_is_key_available` resets on expiry). -/
theorem failureBackoff (tr : KeyUsageTracker) (now lft : Int)
    (hcf : 3 ≤ tr.consecutiveFailures) (hlft : tr.lastFailureTime = some lft) :
    (now - lft ≤ 60 * ((min (5 * 2 ^ (tr.consecutiveFailures - 3)) 240 : Nat) : Int) →
        isKeyTemporarilyDisabled tr now = (true, tr))
    ∧ (60 * ((min (5 * 2 ^ (tr.consecutiveFailures - 3)) 240 : Nat) : Int) < now - lft →
        isKeyTemporarilyDisabled tr now = (false, { tr with consecutiveFailures := 0 }))
    ∧ (∀ cfg t, ((isKeyWithinLimits cfg tr t).2).consecutiveFailures
        = tr.consecutiveFailures)
    ∧ (∀ st key t,
        (((recordFailure st key t) key).getD freshTracker).consecutiveFailures
          = ((st key).getD freshTracker).consecutiveFailures + 1)
    ∧ (∀ st key t r,
        (((recordRateLimitError st key t r) key).getD freshTracker).consecutiveFailures
          = ((st key).getD freshTracker).consecutiveFailures)
    ∧ (∀ (stA : AdvState) key t n, stA.failureCounts key = some n → n + 1 < 5 →
        advRecordFailure stA key t
          = some { stA with failureCounts := fun k =>
              if k = key then some (n + 1) else stA.failureCounts k })
    ∧ (∀ (stA : AdvState) key t n, stA.failureCounts key = some n → 5 ≤ n + 1 →
        advRecordFailure stA key t
          = some { stA with
              failureCounts := fun k =>
                if k = key then some (n + 1) else stA.failureCounts k
              disabledKeys := fun k =>
                if k = key then
                  some (some (t + 60 * ((min (5 * 2 ^ (n + 1 - 5)) 240 : Nat) : Int)))
                else stA.disabledKeys k })
    ∧ (∀ (stA : AdvState) (cfg : AdvKeyConfig) t du, cfg.enabled = true →
        stA.disabledKeys cfg.apiKey = some (some du) → du ≤ t →
        stA.lastRateLimit cfg.apiKey = none →
        advEligible stA cfg t = true) := by
  refine ⟨?_, ?_, ?_, ?_, ?_, ?_, ?_, ?_⟩
  · intro h
    simp only [isKeyTemporarilyDisabled, if_pos hcf, hlft]
    rw [if_neg (by omega)]
  · intro h
    simp only [isKeyTemporarilyDisabled, if_pos hcf, hlft]
    rw [if_pos (by omega)]
  · intro cfg t
    by_cases h1 : tr.isRateLimited
    · cases h2 : tr.rateLimitResetTime with
      | none => simp [isKeyWithinLimits, h1, h2]
      | some rt =>
          by_cases h3 : rt ≤ t
          · simp only [isKeyWithinLimits, h1, h2, if_pos h3, if_true]
            split_ifs <;> simp
          · simp [isKeyWithinLimits, h1, h2, h3]
    · simp only [isKeyWithinLimits, h1, Bool.false_eq_true, if_false]
      split_ifs <;> simp
  · intro st key t
    simp [recordFailure]
  · intro st key t r
    simp [recordRateLimitError]
  · intro stA key t n hn h5
    have h5' : ¬ 5 ≤ n + 1 := by omega
    simp [advRecordFailure, hn, h5']
  · intro stA key t n hn h5
    simp [advRecordFailure, hn, h5]
  · intro stA cfg t du hen hd hle hlrl
    have hnlt : ¬ t < du := by omega
    simp [advEligible, hen, hd, hlrl, hnlt]

/-- Claim C2, counterexample, on the cited `AdvancedAPIKeyManager` code:
three consecutive recorded failures — the claimed threshold — leave the
failure count at 3 with no cooldown stamped, and the selection-path
eligibility check still reports the key eligible; and for a key disabled
by five failures whose 5-minute backoff has expired, that same check
reports it eligible while the failure count is still 5 (the check is
pure, so it cannot reset the counter). -/
theorem failureBackoff_cex :
    (((advRecordFailure advStateOneKey "k" 0).bind
        (fun s => advRecordFailure s "k" 0)).bind
        (fun s => advRecordFailure s "k" 0)).map
        (fun s => (s.failureCounts "k", s.disabledKeys "k",
          advEligible s advCfgK 0))
      = some (some 3, none, true)
    ∧ advEligible advExpiredState advCfgK 301 = true
    ∧ advExpiredState.failureCounts "k" = some 5 :=
  ⟨rfl, rfl, rfl⟩

/-- Witness for `failureBackoff`: four consecutive failures at time 0 give
the deque-based manager a 10-minute backoff — still disabled at t = 600,
re-enabled with the counter cleared at t = 601; in
`AdvancedAPIKeyManager`, a fifth failure at time 0 stamps the 5-minute
cooldown, and once it has expired the selection-path check reports the
key eligible again. -/
theorem failureBackoff_witness :
    isKeyTemporarilyDisabled trBackoff 600 = (true, trBackoff)
    ∧ isKeyTemporarilyDisabled trBackoff 601
        = (false, { trBackoff with consecutiveFailures := 0 })
    ∧ (advRecordFailure advFourFailState "k" 0).map
        (fun s => (s.failureCounts "k", s.disabledKeys "k"))
        = some (some 5, some (some 300))
    ∧ advEligible advExpiredState advCfgK 301 = true := by
  refine ⟨(failureBackoff trBackoff 600 0 (by decide) rfl).1 (by decide),
    (failureBackoff trBackoff 601 0 (by decide) rfl).2.1 (by decide), ?_, ?_⟩
  · have h7 := (failureBackoff trBackoff 600 0 (by decide) rfl).2.2.2.2.2.2.1
      advFourFailState "k" 0 4 rfl (by omega)
    rw [h7]
    norm_num
  · exact (failureBackoff trBackoff 600 0 (by decide) rfl).2.2.2.2.2.2.2
      advExpiredState advCfgK 301 300 rfl rfl (by omega) rfl

/-- Claim C3 (amended): what the three implementations actually do on a
rate-limit signal, including the very first one for a credential.  The
deque-based manager (`record_rate_limit_error`) sets the reset time to the
explicit value when supplied and otherwise to now + 1 minute (not 24
hours), marks the key rate-limited, and leaves `consecutiveFailures`
unchanged.  The dataclass manager (`handle_rate_limit_error`) sets
`cooldown_until = now + 24 h` but accepts no explicit reset time and has
no failure counter.  `AdvancedAPIKeyManager.record_rate_limit_error`
stamps `last_rate_limit = now` and increments the failure count, but on a
first signal sets no cooldown at all (only a second signal within 60 s
does). -/
theorem rateLimitRecord (st : Trackers) (key : String) (now : Int)
    (resetTime : Option Int) (keys : List APIKeyConfig) (c : APIKeyConfig)
    (stA : AdvState) (n : Nat) (hn : stA.failureCounts key = some n)
    (hfirst : stA.lastRateLimit key = none) :
    (recordRateLimitError st key now resetTime key
        = some { (st key).getD freshTracker with
            isRateLimited := true
            rateLimitResetTime := some (resetTime.getD (now + 60)) })
    ∧ (∀ k, k ≠ key → recordRateLimitError st key now resetTime k = st k)
    ∧ handleRateLimitError (c :: keys) c.key now
        = { c with cooldownUntil := some (now + 86400) } :: keys
    ∧ ∃ stA', advRecordRateLimit stA key now = some stA'
        ∧ stA'.disabledKeys = stA.disabledKeys
        ∧ stA'.lastRateLimit key = some now
        ∧ stA'.failureCounts key = some (n + 1) := by
  refine ⟨by simp [recordRateLimitError], ?_, ?_, ?_⟩
  · intro k hk
    simp [recordRateLimitError, hk]
  · simp [handleRateLimitError, updateFirst, setCooldown]
  · refine ⟨{ stA with
      lastRateLimit := fun k => if k = key then some now else stA.lastRateLimit k
      failureCounts := fun k =>
        if k = key then some (n + 1) else stA.failureCounts k },
      ?_, rfl, by simp, by simp⟩
    simp [advRecordRateLimit, hfirst, hn]

/-- Claim C3, counterexample: on the very first rate-limit signal for a
fresh credential with no explicit reset time, the deque-based manager sets
the reset time to now + 60 s, not now + 24 h = now + 86400 s, and leaves
the failure count at 0 instead of incrementing it to 1; and
`AdvancedAPIKeyManager` sets no cooldown at all on a first signal. -/
theorem rateLimitRecord_cex :
    ((recordRateLimitError (fun _ => none) "k" 0 none "k").getD
        freshTracker).rateLimitResetTime = some 60
    ∧ (some (60 : Int) ≠ some (86400 : Int))
    ∧ ((recordRateLimitError (fun _ => none) "k" 0 none "k").getD
        freshTracker).consecutiveFailures = 0
    ∧ ((0 : Nat) ≠ 1)
    ∧ (advRecordRateLimit advStateOneKey "k" 0).map (fun s => s.disabledKeys "k")
        = some none := by
  refine ⟨rfl, by decide, rfl, by decide, rfl⟩

/-- Witness for `rateLimitRecord` at concrete inputs: explicit reset time
supplied and a first signal on the registered id `k`. -/
theorem rateLimitRecord_witness :
    (recordRateLimitError stFresh "k" 100 (some 500) "k"
        = some { freshTracker with
            isRateLimited := true, rateLimitResetTime := some 500 })
    ∧ (advRecordRateLimit advStateOneKey "k" 100).map
        (fun s => (s.disabledKeys "k", s.lastRateLimit "k", s.failureCounts "k"))
        = some (none, some 100, some 1) := by
  have h := rateLimitRecord stFresh "k" 100 (some 500) [] cfgAvail
    advStateOneKey 0 rfl rfl
  obtain ⟨h1, _, _, stA', h4, h5, h6, h7⟩ := h
  constructor
  · exact h1.trans (by rfl)
  · rw [h4]
    simp only [Option.map_some']
    rw [congrFun h5 "k", h6, h7]
    rfl

/-- Claim C4 (amended): for the deque-based manager, `record_request`
does everything the claim states — appends `now` to the three windows,
sets `last_used`, resets the failure counter, and clears both the
rate-limit flag and the reset time.  For `AdvancedAPIKeyManager`,
`record_successful_request` appends the timestamps, sets `last_used` and
resets the failure count, but does NOT clear the cooldown
(`disabled_keys`) or the rate-limit stamp (`last_rate_limit`): a key in
cooldown remains blocked after a recorded success. -/
theorem successClears (st : Trackers) (key : String) (now : Int)
    (stA : AdvState) (s : AdvUsageStats) (hs : stA.usageStats key = some s) :
    (recordRequest st key now key
        = some { (st key).getD freshTracker with
            requestsThisMinute :=
              ((st key).getD freshTracker).requestsThisMinute ++ [now]
            requestsThisHour :=
              ((st key).getD freshTracker).requestsThisHour ++ [now]
            requestsThisDay :=
              ((st key).getD freshTracker).requestsThisDay ++ [now]
            lastUsed := some now
            consecutiveFailures := 0
            isRateLimited := false
            rateLimitResetTime := none })
    ∧ (∀ k, k ≠ key → recordRequest st key now k = st k)
    ∧ ∃ stA', advRecordSuccess stA key now = some stA'
        ∧ stA'.lastUsed key = some (some now)
        ∧ stA'.failureCounts key = some 0
        ∧ stA'.disabledKeys = stA.disabledKeys
        ∧ stA'.lastRateLimit = stA.lastRateLimit := by
  refine ⟨by simp [recordRequest], ?_, ?_⟩
  · intro k hk
    simp [recordRequest, hk]
  · refine ⟨{ stA with
      usageStats := fun k =>
        if k = key then
          some { s with
            requestsThisMinute := s.requestsThisMinute ++ [now]
            requestsThisHour := s.requestsThisHour ++ [now]
            requestsThisDay := s.requestsThisDay ++ [now]
            totalRequests := s.totalRequests + 1 }
        else stA.usageStats k
      lastUsed := fun k => if k = key then some (some now) else stA.lastUsed k
      failureCounts := fun k => if k = key then some 0 else stA.failureCounts k },
      ?_, by simp, by simp, rfl, rfl⟩
    simp [advRecordSuccess, hs]

/-- Claim C4, counterexample: in `AdvancedAPIKeyManager`, a recorded
success does not clear the cooldown marker — after a success at time 0 on
a key whose cooldown runs to time 1000, the key is still reported
unavailable and the marker is untouched. -/
theorem successClears_cex :
    (advRecordSuccess advCooldownState "k" 0).bind
        (fun st' => (isKeyAvailable st' advCfgK 0).map Prod.fst) = some false
    ∧ (advRecordSuccess advCooldownState "k" 0).map
        (fun st' => st'.disabledKeys "k") = some (some (some 1000)) := by
  exact ⟨rfl, rfl⟩

/-- Witness for `successClears` at concrete inputs. -/
theorem successClears_witness :
    recordRequest stFresh "k" 7 "k"
        = some { freshTracker with
            requestsThisMinute := [7], requestsThisHour := [7]
            requestsThisDay := [7], lastUsed := some 7 }
    ∧ (advRecordSuccess advStateOneKey "k" 7).map
        (fun s => (s.lastUsed "k", s.failureCounts "k", s.disabledKeys "k"))
        = some (some (some 7), some 0, none) := by
  have h := successClears stFresh "k" 7 advStateOneKey advFreshStats rfl
  obtain ⟨h1, _, stA', h3, h4, h5, h6, _⟩ := h
  constructor
  · exact h1.trans (by rfl)
  · rw [h3]
    simp only [Option.map_some']
    rw [h4, h5, congrFun h6 "k"]
    rfl

/-- Claim C8 (amended): the deque-based manager's three outcome-recording
operations are total for unknown ids — each lazily creates a fresh
tracking record for the id and leaves every other id's record untouched
(`record_failure` on an unknown id yields a fresh tracker with one
failure).  `AdvancedAPIKeyManager`'s recording operations instead raise
`KeyError` for unknown ids (see the counterexample). -/
theorem unknownIdSafe (st : Trackers) (key : String) (now : Int)
    (resetTime : Option Int) :
    ((recordRequest st key now) key).isSome
    ∧ (∀ k, k ≠ key → recordRequest st key now k = st k)
    ∧ ((recordRateLimitError st key now resetTime) key).isSome
    ∧ (∀ k, k ≠ key → recordRateLimitError st key now resetTime k = st k)
    ∧ ((recordFailure st key now) key).isSome
    ∧ (∀ k, k ≠ key → recordFailure st key now k = st k)
    ∧ (st key = none → recordFailure st key now key
        = some { freshTracker with
            consecutiveFailures := 1, lastFailureTime := some now }) := by
  refine ⟨by simp [recordRequest], fun k hk => by simp [recordRequest, hk],
    by simp [recordRateLimitError],
    fun k hk => by simp [recordRateLimitError, hk],
    by simp [recordFailure], fun k hk => by simp [recordFailure, hk], ?_⟩
  intro hnone
  simp [recordFailure, hnone, freshTracker]

/-- Claim C8, counterexample: all three recording operations of
`AdvancedAPIKeyManager` raise `KeyError` (modelled `none`) when called
with an id that was never registered. -/
theorem unknownIdRaises_cex :
    advRecordSuccess advEmpty "unknown" 0 = none
    ∧ advRecordRateLimit advEmpty "unknown" 0 = none
    ∧ advRecordFailure advEmpty "unknown" 0 = none :=
  ⟨rfl, rfl, rfl⟩

/-- Witness for `unknownIdSafe`: recording a failure for an id the
deque-based manager has never seen creates a fresh one-failure tracker and
leaves the registered id `k` untouched. -/
theorem unknownIdSafe_witness :
    recordFailure stFresh "new" 5 "new"
        = some { freshTracker with
            consecutiveFailures := 1, lastFailureTime := some 5 }
    ∧ recordFailure stFresh "new" 5 "k" = stFresh "k" := by
  have h := unknownIdSafe stFresh "new" 5 none
  exact ⟨h.2.2.2.2.2.2 rfl, h.2.2.2.2.2.1 "k" (by decide)⟩

/-- Claim C6 (amended): the weight `_weighted_random_selection` assigns to
an eligible candidate is the product of FIVE factors — priority, usage,
failure, recency and capacity — floored at 1/10, so every eligible
candidate's weight is at least 1/10 > 0 (strictly positive selection
probability).  Two corrections to the claim: the recency factor of a
never-used credential is 1, not 2, and the claim omits the usage factor
`(3/(m+1) + 2/(h+1) + 1/(d+1))/6` that the code multiplies in. -/
theorem weightFormula (st : Trackers) (now : Int) (item : String × APIKeySettings) :
    finalWeight st now item
        = max (priorityFactor item.2
            * usageFactor ((st item.1).getD freshTracker)
            * failureFactor ((st item.1).getD freshTracker)
            * recencyFactor ((st item.1).getD freshTracker) now
            * capacityFactor item.2 ((st item.1).getD freshTracker)) (1 / 10)
    ∧ (1 / 10 : ℚ) ≤ finalWeight st now item
    ∧ (0 : ℚ) < finalWeight st now item := by
  have heq : finalWeight st now item
      = max (priorityFactor item.2
          * usageFactor ((st item.1).getD freshTracker)
          * failureFactor ((st item.1).getD freshTracker)
          * recencyFactor ((st item.1).getD freshTracker) now
          * capacityFactor item.2 ((st item.1).getD freshTracker)) (1 / 10) := by
    simp only [finalWeight, priorityFactor, usageFactor, failureFactor,
      recencyFactor, capacityFactor]
    congr 1
    ring
  refine ⟨heq, ?_, ?_⟩
  · rw [heq]
    exact le_max_right _ _
  · rw [heq]
    exact lt_of_lt_of_le (by norm_num) (le_max_right _ _)

/-- Claim C6, counterexample: for a never-used fresh credential the code's
weight is 10 while the claimed four-factor formula (recency 2 when never
used) gives 20; and for a credential used once in each window the two
formulas differ again (the code multiplies in the usage factor 1/2). -/
theorem weightFormula_cex :
    finalWeight stFresh 0 ("k", cfgW) = 10
    ∧ claimedWeight stFresh 0 ("k", cfgW) = 20
    ∧ finalWeight stUsedOnce 0 ("k", cfgW)
        ≠ claimedWeight stUsedOnce 0 ("k", cfgW) := by
  refine ⟨?_, ?_, ?_⟩ <;>
    norm_num [finalWeight, claimedWeight, stFresh, stUsedOnce, cfgW,
      freshTracker, trUsedOnce, priorityFactor, capacityFactor, failureFactor]

lemma advPrune_idem (s : AdvUsageStats) (now : Int) :
    advPrune (advPrune s now) now = advPrune s now := by
  simp [advPrune, List.filter_filter, Bool.and_self]

lemma advLimitCheck_effect {st : AdvState} {cfg : AdvKeyConfig} {now : Int}
    {b : Bool} {st' : AdvState} (h : advLimitCheck st cfg now = some (b, st')) :
    st'.lastUsed = st.lastUsed
    ∧ st'.lastRateLimit = st.lastRateLimit
    ∧ st'.failureCounts = st.failureCounts
    ∧ (∀ k, k ≠ cfg.apiKey → st'.usageStats k = st.usageStats k
        ∧ st'.disabledKeys k = st.disabledKeys k)
    ∧ st'.usageStats cfg.apiKey
        = (st.usageStats cfg.apiKey).map (fun s => advPrune s now) := by
  cases hs : st.usageStats cfg.apiKey with
  | none =>
    unfold advLimitCheck cleanOldUsageData at h
    rw [hs] at h
    exact Option.noConfusion h
  | some s =>
    simp only [advLimitCheck, cleanOldUsageData, hs, if_true] at h
    split_ifs at h <;> rw [Option.some_inj, Prod.mk.injEq] at h <;>
      obtain ⟨hb, hst⟩ := h <;> subst hst
    · exact ⟨rfl, rfl, rfl, fun k hk => by simp [hk], by simp [hs]⟩
    · exact ⟨rfl, rfl, rfl, fun k hk => by simp [hk], by simp [hs]⟩
    · refine ⟨rfl, rfl, rfl, fun k hk => ?_, by simp [disableKeyForRateLimit, hs]⟩
      constructor
      · simp [disableKeyForRateLimit, hk]
      · simp [disableKeyForRateLimit, hk]
    · exact ⟨rfl, rfl, rfl, fun k hk => by simp [hk], by simp [hs]⟩

lemma isKeyAvailable_effect {st : AdvState} {cfg : AdvKeyConfig} {now : Int}
    {b : Bool} {st' : AdvState} (h : isKeyAvailable st cfg now = some (b, st')) :
    st'.lastUsed = st.lastUsed
    ∧ st'.lastRateLimit = st.lastRateLimit
    ∧ (∀ k, k ≠ cfg.apiKey → st'.usageStats k = st.usageStats k
        ∧ st'.disabledKeys k = st.disabledKeys k
        ∧ st'.failureCounts k = st.failureCounts k)
    ∧ (st'.usageStats cfg.apiKey = st.usageStats cfg.apiKey
        ∨ st'.usageStats cfg.apiKey
            = (st.usageStats cfg.apiKey).map (fun s => advPrune s now)) := by
  unfold isKeyAvailable at h
  split at h
  · rw [Option.some_inj, Prod.mk.injEq] at h
    obtain ⟨hb, hst⟩ := h
    subst hst
    exact ⟨rfl, rfl, fun k hk => ⟨rfl, rfl, rfl⟩, Or.inl rfl⟩
  · split at h
    · rename_i du hd
      split at h
      · rw [Option.some_inj, Prod.mk.injEq] at h
        obtain ⟨hb, hst⟩ := h
        subst hst
        exact ⟨rfl, rfl, fun k hk => ⟨rfl, rfl, rfl⟩, Or.inl rfl⟩
      · obtain ⟨h1, h2, h3, h4, h5⟩ := advLimitCheck_effect h
        refine ⟨h1, h2, fun k hk => ?_, Or.inr h5⟩
        refine ⟨(h4 k hk).1, (h4 k hk).2.trans (by simp [hk]),
          (congrFun h3 k).trans (by simp [hk])⟩
    · obtain ⟨h1, h2, h3, h4, h5⟩ := advLimitCheck_effect h
      exact ⟨h1, h2, fun k hk => ⟨(h4 k hk).1, (h4 k hk).2, congrFun h3 k⟩,
        Or.inr h5⟩

/-- Claim C9 (amended): the status snapshot is NOT read-only.  For every
state, `get_keys_status` leaves `last_used`, `last_rate_limit` and the
whole record of every non-configured id unchanged, but for each configured
id it prunes the expired usage entries (counts are reported
post-pruning), and through `_is_key_available` it can also clear an
expired cooldown (resetting that id's failure count) or set the daily-cap
cooldown.  So usage entries, failure counts and cooldown stamps can
differ across the call — only `last_used` (and the rate-limit stamp) are
guaranteed unchanged. -/
theorem statusEffect (st : AdvState) (keys : List AdvKeyConfig) (now : Int)
    (st' : AdvState) (h : getKeysStatusState st keys now = some st') :
    st'.lastUsed = st.lastUsed
    ∧ st'.lastRateLimit = st.lastRateLimit
    ∧ (∀ k, k ∉ keys.map AdvKeyConfig.apiKey →
        st'.usageStats k = st.usageStats k
        ∧ st'.disabledKeys k = st.disabledKeys k
        ∧ st'.failureCounts k = st.failureCounts k)
    ∧ (∀ k, k ∈ keys.map AdvKeyConfig.apiKey →
        st'.usageStats k = (st.usageStats k).map (fun s => advPrune s now)) := by
  induction keys generalizing st with
  | nil =>
      simp only [getKeysStatusState, Option.some_inj] at h
      subst h
      exact ⟨rfl, rfl, fun k _ => ⟨rfl, rfl, rfl⟩, fun k hk => by simp at hk⟩
  | cons cfg rest ih =>
      unfold getKeysStatusState at h
      split at h
      · exact Option.noConfusion h
      · rename_i st1 hclean
        split at h
        · exact Option.noConfusion h
        · rename_i pair bb st2 hik
          split at h
          case h_2 => exact Option.noConfusion h
          rename_i fcv luv hfc hlu
          obtain ⟨s, hs, hst1⟩ : ∃ s, st.usageStats cfg.apiKey = some s
              ∧ st1 = { st with usageStats := fun k =>
                  if k = cfg.apiKey then some (advPrune s now)
                  else st.usageStats k } := by
            unfold cleanOldUsageData at hclean
            cases hs : st.usageStats cfg.apiKey with
            | none => rw [hs] at hclean; exact Option.noConfusion hclean
            | some s =>
                rw [hs] at hclean
                rw [Option.some_inj] at hclean
                exact ⟨s, rfl, hclean.symm⟩
          subst hst1
          obtain ⟨e1, e2, e3, e4⟩ := isKeyAvailable_effect hik
          obtain ⟨i1, i2, i3, i4⟩ := ih st2 h
          have husage2 : st2.usageStats cfg.apiKey = some (advPrune s now) := by
            rcases e4 with e4 | e4
            · simpa using e4
            · simp only [e4]
              simp [advPrune_idem]
          refine ⟨i1.trans e1, i2.trans e2, ?_, ?_⟩
          · intro k hk
            have hk1 : k ≠ cfg.apiKey := by
              intro hEq; exact hk (by simp [hEq])
            have hk2 : k ∉ rest.map AdvKeyConfig.apiKey := by
              intro hm; exact hk (by simp [hm])
            obtain ⟨f1, f2, f3⟩ := i3 k hk2
            obtain ⟨g1, g2, g3⟩ := e3 k hk1
            refine ⟨f1.trans (g1.trans (by simp [hk1])),
              f2.trans g2, f3.trans g3⟩
          · intro k hk
            simp only [List.map_cons, List.mem_cons] at hk
            by_cases hkr : k ∈ rest.map AdvKeyConfig.apiKey
            · have hmain := i4 k hkr
              by_cases hkc : k = cfg.apiKey
              · subst hkc
                rw [hmain, husage2, hs]
                simp [advPrune_idem]
              · rw [hmain, (e3 k hkc).1]
                simp [hkc]
            · have hkc : k = cfg.apiKey := by tauto
              obtain ⟨f1, _, _⟩ := i3 k hkr
              rw [f1, hkc, husage2, hs]
              rfl

/-- Claim C9, counterexample: calling the status snapshot on a manager
whose key `k` has a usage entry at time 0, at time 100, changes that
key's minute window from `[0]` to `[]` — a usage entry differs before and
after the call, so the call is not read-only. -/
theorem statusMutates_cex :
    (getKeysStatusState advStatusState [advCfgK] 100).map
        (fun s => s.usageStats "k")
      = some (some { requestsThisMinute := []
                     requestsThisHour := [0]
                     requestsThisDay := [0]
                     totalRequests := 1 })
    ∧ advStatusState.usageStats "k"
      = some { requestsThisMinute := [0]
               requestsThisHour := [0]
               requestsThisDay := [0]
               totalRequests := 1 }
    ∧ ({ requestsThisMinute := []
         requestsThisHour := [0]
         requestsThisDay := [0]
         totalRequests := 1 } : AdvUsageStats)
      ≠ { requestsThisMinute := [0]
          requestsThisHour := [0]
          requestsThisDay := [0]
          totalRequests := 1 } := by
  refine ⟨rfl, rfl, by decide⟩

/-- Witness for `statusEffect` at a concrete state: the status call keeps
`last_used` and prunes the stored usage entry. -/
theorem statusEffect_witness :
    (getKeysStatusState advStatusState [advCfgK] 100).map
        (fun s => (s.lastUsed "k", s.usageStats "k"))
      = some (advStatusState.lastUsed "k",
          (advStatusState.usageStats "k").map (fun s => advPrune s 100)) := by
  have hrun : ∃ s', getKeysStatusState advStatusState [advCfgK] 100 = some s' :=
    ⟨_, rfl⟩
  obtain ⟨s', hs'⟩ := hrun
  have h := statusEffect advStatusState [advCfgK] 100 s' hs'
  rw [hs', Option.map_some']
  rw [congrFun h.1 "k", h.2.2.2 "k" (by simp [advCfgK])]

lemma mergeSort_head_exists {α : Type} (le : α → α → Bool) (l : List α)
    (hne : l ≠ []) : ∃ m, (l.mergeSort le).head? = some m := by
  cases hms : l.mergeSort le with
  | nil =>
      exfalso
      have hlen := (List.mergeSort_perm l le).length_eq
      rw [hms] at hlen
      exact hne (List.length_eq_zero.mp hlen.symm)
  | cons a tl => exact ⟨a, rfl⟩

lemma head_mergeSort_min {α : Type} (le : α → α → Bool)
    (htrans : ∀ (a b c : α), le a b → le b c → le a c)
    (htotal : ∀ (a b : α), le a b || le b a)
    (l : List α) (m : α) (hm : (l.mergeSort le).head? = some m) :
    m ∈ l ∧ ∀ x ∈ l, le m x = true := by
  have hperm := List.mergeSort_perm l le
  have hsorted := List.sorted_mergeSort htrans htotal l
  obtain ⟨tl, htl⟩ : ∃ tl, l.mergeSort le = m :: tl := by
    cases hms : l.mergeSort le with
    | nil => rw [hms] at hm; exact Option.noConfusion hm
    | cons a tl =>
        rw [hms] at hm
        rw [List.head?_cons, Option.some_inj] at hm
        exact ⟨tl, by rw [hm]⟩
  constructor
  · exact hperm.subset (htl ▸ List.mem_cons_self m tl)
  · intro x hx
    have hxm : x ∈ m :: tl := htl ▸ hperm.symm.subset hx
    rcases List.mem_cons.mp hxm with rfl | hxtl
    · simpa using htotal x x
    · rw [htl] at hsorted
      exact List.rel_of_sorted_cons hsorted x hxtl

lemma mergeSort_pair_head_right {α : Type} (le : α → α → Bool)
    (htrans : ∀ (a b c : α), le a b → le b c → le a c)
    (htotal : ∀ (a b : α), le a b || le b a)
    (a b : α) (hba : le b a = true) (hab : le a b = false) :
    ([a, b].mergeSort le).head? = some b := by
  obtain ⟨m, hm⟩ := mergeSort_head_exists le [a, b] (by simp)
  obtain ⟨hmem, hmin⟩ := head_mergeSort_min le htrans htotal [a, b] m hm
  rcases (by simpa using hmem : m = a ∨ m = b) with rfl | rfl
  · have hcontra := hmin b (by simp)
    rw [hab] at hcontra
    exact absurd hcontra (by simp)
  · exact hm

lemma mergeSort_pair_head_left {α : Type} (le : α → α → Bool)
    (htrans : ∀ (a b c : α), le a b → le b c → le a c)
    (htotal : ∀ (a b : α), le a b || le b a)
    (a b : α) (hab : le a b = true) (hba : le b a = false) :
    ([a, b].mergeSort le).head? = some a := by
  obtain ⟨m, hm⟩ := mergeSort_head_exists le [a, b] (by simp)
  obtain ⟨hmem, hmin⟩ := head_mergeSort_min le htrans htotal [a, b] m hm
  rcases (by simpa using hmem : m = a ∨ m = b) with rfl | rfl
  · exact hm
  · have hcontra := hmin a (by simp)
    rw [hba] at hcontra
    exact absurd hcontra (by simp)

lemma priorityLe_trans (st : Trackers) :
    ∀ a b c, priorityLe st a b → priorityLe st b c → priorityLe st a c := by
  intro a b c hab hbc
  simp only [priorityLe, decide_eq_true_eq] at *
  exact le_trans hab hbc

lemma priorityLe_total (st : Trackers) :
    ∀ a b, priorityLe st a b || priorityLe st b a := by
  intro a b
  simp only [priorityLe]
  rcases le_total (prioritySortKey st a) (prioritySortKey st b) with h | h <;> simp [h]

lemma prioritySortKey_le_antisymm {st : Trackers} {a b : String × APIKeySettings}
    (h1 : prioritySortKey st a ≤ prioritySortKey st b)
    (h2 : prioritySortKey st b ≤ prioritySortKey st a) : a.1 = b.1 := by
  have heq := le_antisymm h1 h2
  have hproj := congrArg
    (fun t : Lex (Int × Lex (Int × Lex (Nat × Lex (Nat × String)))) =>
      (ofLex ((ofLex ((ofLex ((ofLex t).2)).2)).2)).2) heq
  simpa [prioritySortKey] using hproj

/-- Claim C5 (amended): `_priority_based_selection` in the deque-based
manager returns the first candidate under the total lexicographic order on
(priority ascending, health descending, minute-usage ascending, failures
ascending, id ascending), health = 100 - 10*failures - 2*minuteUsage:
the selected candidate belongs to the list and its sort key is at most
every candidate's sort key, and — with pairwise-distinct ids, which make
the order antisymmetric — every permutation of the candidate list
(insertion order) yields the same selection, so repeated calls with
unchanged state return the same candidate.  The non-random fallback of
`AdvancedAPIKeyManager.get_available_api_key` does NOT use this tuple (it
sorts by priority, weighted score, failure count, id — see the
counterexample), so the claim holds only of the deque-based manager. -/
theorem prioritySelectMin (st : Trackers) (l : List (String × APIKeySettings))
    (hne : l ≠ []) (hnd : (l.map Prod.fst).Nodup) :
    ∃ m, priorityBasedSelection st l = some m ∧ m ∈ l
      ∧ (∀ x ∈ l, prioritySortKey st m ≤ prioritySortKey st x)
      ∧ ∀ l', l.Perm l' → priorityBasedSelection st l' = priorityBasedSelection st l := by
  obtain ⟨m, hm⟩ := mergeSort_head_exists (priorityLe st) l hne
  obtain ⟨hmem, hmin⟩ := head_mergeSort_min (priorityLe st)
    (priorityLe_trans st) (priorityLe_total st) l m hm
  refine ⟨m, hm, hmem, ?_, ?_⟩
  · intro x hx
    have hx' := hmin x hx
    simpa [priorityLe, decide_eq_true_eq] using hx'
  · intro l' hperm
    have hne' : l' ≠ [] := by
      intro h0
      subst h0
      exact hne hperm.eq_nil
    obtain ⟨m', hm'⟩ := mergeSort_head_exists (priorityLe st) l' hne'
    obtain ⟨hmem', hmin'⟩ := head_mergeSort_min (priorityLe st)
      (priorityLe_trans st) (priorityLe_total st) l' m' hm'
    have hm'l : m' ∈ l := hperm.symm.subset hmem'
    have h1 : prioritySortKey st m ≤ prioritySortKey st m' := by
      simpa [priorityLe, decide_eq_true_eq] using hmin m' hm'l
    have h2 : prioritySortKey st m' ≤ prioritySortKey st m := by
      simpa [priorityLe, decide_eq_true_eq] using hmin' m (hperm.subset hmem)
    have hid : m.1 = m'.1 := prioritySortKey_le_antisymm h1 h2
    have hmm' : m = m' := List.inj_on_of_nodup_map hnd hmem hm'l hid
    rw [priorityBasedSelection, priorityBasedSelection, hm, hm', hmm']

/-- Witness for `prioritySelectMin`: with two priority-1 candidates, one of
which carries a failure, the selection succeeds and is the same for both
insertion orders. -/
theorem prioritySelectMin_witness :
    (priorityBasedSelection stSelect [itemP, itemQ]).isSome
    ∧ priorityBasedSelection stSelect [itemQ, itemP]
        = priorityBasedSelection stSelect [itemP, itemQ] := by
  obtain ⟨m, h1, _, _, h4⟩ := prioritySelectMin stSelect [itemP, itemQ]
    (by simp) (by simp [itemP, itemQ])
  exact ⟨by rw [h1]; rfl, h4 [itemQ, itemP] (List.Perm.swap itemQ itemP [])⟩

lemma decide_le_trans {α β : Type} [LinearOrder β] (f : α → β) (a b c : α)
    (h1 : decide (f a ≤ f b) = true) (h2 : decide (f b ≤ f c) = true) :
    decide (f a ≤ f c) = true := by
  simp only [decide_eq_true_eq] at *
  exact le_trans h1 h2

lemma decide_le_total {α β : Type} [LinearOrder β] (f : α → β) (a b : α) :
    (decide (f a ≤ f b) || decide (f b ≤ f a)) = true := by
  rcases le_total (f a) (f b) with h | h <;> simp [h]

lemma advScoreA : advKeyScore advTieState advCfgA 0 = 29 / 3 := by
  norm_num [advKeyScore, advTieState, advCfgA, max_def]

lemma advScoreB : advKeyScore advTieState advCfgB 0 = 10 := by
  have hne : ("b" : String) ≠ "a" := by decide
  norm_num [advKeyScore, advTieState, advCfgB, advFreshStats, max_def, hne]

lemma advSortAB :
    ¬ advSortKey advTieState 0 advCfgA ≤ advSortKey advTieState 0 advCfgB := by
  have hne : ("b" : String) ≠ "a" := by decide
  simp only [advSortKey, advScoreA, advScoreB]
  norm_num [advTieState, advCfgA, advCfgB, Prod.Lex.le_iff, hne]

lemma advSortBA :
    advSortKey advTieState 0 advCfgB ≤ advSortKey advTieState 0 advCfgA := by
  have hne : ("b" : String) ≠ "a" := by decide
  simp only [advSortKey, advScoreA, advScoreB]
  norm_num [advTieState, advCfgA, advCfgB, Prod.Lex.le_iff, hne]

lemma claimedTupleAB :
    claimedTuple advTieState advCfgA ≤ claimedTuple advTieState advCfgB := by
  have hab : ("a" : String) ≤ "b" :=
    le_of_lt (by rw [String.lt_iff_toList_lt]; decide)
  have hne : ("b" : String) ≠ "a" := by decide
  simp only [claimedTuple]
  norm_num [advTieState, advCfgA, advCfgB, advFreshStats, Prod.Lex.le_iff, hab, hne]

lemma claimedTupleBA :
    ¬ claimedTuple advTieState advCfgB ≤ claimedTuple advTieState advCfgA := by
  have hba : ¬ ("b" : String) ≤ "a" :=
    not_le.mpr (by rw [String.lt_iff_toList_lt]; decide)
  have hne : ("b" : String) ≠ "a" := by decide
  simp only [claimedTuple]
  norm_num [advTieState, advCfgA, advCfgB, advFreshStats, Prod.Lex.le_iff, hba, hne]

/-- Claim C5, counterexample: for two priority-1 candidates that tie on the
claimed tuple everywhere except the id (no failures, no minute usage) but
differ in hour usage, `AdvancedAPIKeyManager`'s non-random branch selects
`b` (higher weighted score), while the claimed tuple order selects `a` (id
tie-break) — so selection in that manager is not governed by the claimed
tuple. -/
theorem prioritySelect_cex :
    (advPrioritySelect advTieState [advCfgA, advCfgB] 0).map Prod.fst = some "b"
    ∧ claimedTupleSelect advTieState [advCfgA, advCfgB] 0 = some "a"
    ∧ ("b" : String) ≠ "a" := by
  refine ⟨?_, ?_, by simp⟩
  · have hhead := mergeSort_pair_head_right
      (fun a b => decide (advSortKey advTieState 0 a ≤ advSortKey advTieState 0 b))
      (fun a b c h1 h2 => decide_le_trans (advSortKey advTieState 0) a b c h1 h2)
      (fun a b => decide_le_total (advSortKey advTieState 0) a b)
      advCfgA advCfgB (decide_eq_true advSortBA) (decide_eq_false advSortAB)
    have hunf : advPrioritySelect advTieState [advCfgA, advCfgB] 0
        = (([advCfgA, advCfgB].mergeSort
            (fun a b => decide (advSortKey advTieState 0 a
              ≤ advSortKey advTieState 0 b))).head?).map
            (fun c => (c.apiKey, c)) := rfl
    rw [hunf, hhead]
    rfl
  · have hhead := mergeSort_pair_head_left
      (fun a b => decide (claimedTuple advTieState a ≤ claimedTuple advTieState b))
      (fun a b c h1 h2 => decide_le_trans (claimedTuple advTieState) a b c h1 h2)
      (fun a b => decide_le_total (claimedTuple advTieState) a b)
      advCfgA advCfgB (decide_eq_true claimedTupleAB) (decide_eq_false claimedTupleBA)
    have hunf : claimedTupleSelect advTieState [advCfgA, advCfgB] 0
        = (([advCfgA, advCfgB].mergeSort
            (fun a b => decide (claimedTuple advTieState a
              ≤ claimedTuple advTieState b))).head?).map
            (fun c => c.apiKey) := rfl
    rw [hunf, hhead]
    rfl

/-- Claim C10: with `max_wait_time = 0` the loop guard
`time.time() - start_time < max_wait_time` fails at the very first check,
before any selection attempt — the call returns the timed-out result with
zero attempts and zero sleeps even when an eligible key exists at the
moment of the call. -/
theorem zeroWaitNoAttempt (keys : List APIKeyConfig) (start : Int)
    (_h : (getAvailableKey keys start).isSome) :
    waitForAvailableKey keys 0 start
      = { found := none, sleeps := [], attempts := 0 } := by
  unfold waitForAvailableKey
  unfold waitAux
  simp

/-- Witness for `zeroWaitNoAttempt`: a key that can make a request at time
0 exists, yet the zero-budget wait returns the timed-out result without a
single attempt. -/
theorem zeroWaitNoAttempt_witness :
    waitForAvailableKey [cfgAvail] 0 0
      = { found := none, sleeps := [], attempts := 0 } :=
  zeroWaitNoAttempt [cfgAvail] 0 (by decide)

lemma waitAux_bounds (keys : List APIKeyConfig) (maxWait start : Int) :
    ∀ (n : Nat) (elapsed waitTime : Int) (hw : 1 ≤ waitTime), waitTime ≤ 60 →
      (maxWait - elapsed).toNat ≤ n →
      (∀ s ∈ (waitAux keys maxWait start elapsed waitTime hw).sleeps,
          1 ≤ s ∧ s ≤ 60)
      ∧ (elapsed < maxWait + 60 →
          elapsed + ((waitAux keys maxWait start elapsed waitTime hw).sleeps).sum
            < maxWait + 60) := by
  intro n
  induction n with
  | zero =>
      intro elapsed waitTime hw h60 hn
      have hge : ¬ elapsed < maxWait := by omega
      unfold waitAux
      rw [dif_neg hge]
      exact ⟨by simp, fun hlt => by simpa using hlt⟩
  | succ n ih =>
      intro elapsed waitTime hw h60 hn
      by_cases hlt : elapsed < maxWait
      · unfold waitAux
        rw [dif_pos hlt]
        split
        · refine ⟨fun s hs => absurd hs (by simp), fun h2 => by simpa using h2⟩
        · have h1 : 1 ≤ sleepDuration keys (start + elapsed) waitTime := by
            unfold sleepDuration
            split <;> omega
          have h2 : sleepDuration keys (start + elapsed) waitTime ≤ 60 := by
            unfold sleepDuration
            split <;> omega
          have hrec := ih (elapsed + sleepDuration keys (start + elapsed) waitTime)
            (min (waitTime * 2) 60) (by omega) (by omega) (by omega)
          constructor
          · intro s hs
            rcases List.mem_cons.mp hs with rfl | hs'
            · exact ⟨h1, h2⟩
            · exact hrec.1 s hs'
          · intro hbound
            have hsum := hrec.2 (by omega)
            simp only [List.sum_cons]
            omega
      · unfold waitAux
        rw [dif_neg hlt]
        exact ⟨by simp, fun h2 => by simpa using h2⟩

/-- Claim C7 (amended): with `max_wait_time = 0` the loop returns the
timed-out result without sleeping (and without an attempt); in general
the backoff starts at 1 s and doubles to a 60 s cap, each sleep lasting
`min(max(1, next_available - now), backoff)` seconds when some key has a
future availability time and `backoff` seconds otherwise — so every
sleep is between 1 s and 60 s — and the loop always terminates, with
total sleep time strictly less than `max_wait_time + 60`.  The sleep is
NOT clipped to the remaining budget (the claim's
`min(backoff, remainingBudget)` is wrong; see the counterexample), so the
budget can be overshot by up to one final sleep of at most 60 s, after
which the elapsed-time guard reports exhaustion. -/
theorem waitLoopBounds (keys : List APIKeyConfig) (maxWait start : Int)
    (hmw : 0 ≤ maxWait) :
    (maxWait = 0 →
        waitForAvailableKey keys maxWait start
          = { found := none, sleeps := [], attempts := 0 })
    ∧ (∀ s ∈ (waitForAvailableKey keys maxWait start).sleeps, 1 ≤ s ∧ s ≤ 60)
    ∧ (waitForAvailableKey keys maxWait start).sleeps.sum < maxWait + 60 := by
  have hb := waitAux_bounds keys maxWait start (maxWait - 0).toNat 0 1
    (by omega) (by omega) (by omega)
  refine ⟨?_, ?_, ?_⟩
  · intro h0
    subst h0
    unfold waitForAvailableKey
    unfold waitAux
    simp
  · exact fun s hs => hb.1 s hs
  · have hs := hb.2 (by omega)
    simpa using hs

/-- Witness for `waitLoopBounds`: the total sleep of a 10-second-budget
wait with no keys stays below 70 s. -/
theorem waitLoopBounds_witness :
    (waitForAvailableKey [] 10 0).sleeps.sum < 10 + 60 :=
  (waitLoopBounds [] 10 0 (by omega)).2.2

/-- Claim C7, counterexample: with no keys and a 10-second budget the loop
sleeps 1, 2, 4 and then 8 seconds — 15 s in total, exceeding the budget —
whereas sleeping `min(backoff, remainingBudget)` as claimed could never
let the total exceed 10 s.  The fourth sleep lasts 8 s although only 3 s
of budget remain. -/
theorem waitBudget_cex :
    (waitForAvailableKey [] 10 0).sleeps = [1, 2, 4, 8]
    ∧ ((1 : Int) + 2 + 4 + 8 = 15)
    ∧ ¬ ((15 : Int) ≤ 10) := by
  refine ⟨?_, by norm_num, by norm_num⟩
  have h15 : waitAux [] 10 0 15 16 (by omega)
      = { found := none, sleeps := [], attempts := 0 } := by
    unfold waitAux
    rfl
  have h7 : waitAux [] 10 0 7 8 (by omega)
      = { found := none, sleeps := [8], attempts := 1 } := by
    unfold waitAux
    rw [dif_pos (by norm_num : (7 : Int) < 10)]
    norm_num [getAvailableKey, sleepDuration, getNextAvailableTime,
      List.filter_nil, min_def]
    rw [h15]
    exact ⟨rfl, rfl, rfl⟩
  have h3 : waitAux [] 10 0 3 4 (by omega)
      = { found := none, sleeps := [4, 8], attempts := 2 } := by
    unfold waitAux
    rw [dif_pos (by norm_num : (3 : Int) < 10)]
    norm_num [getAvailableKey, sleepDuration, getNextAvailableTime,
      List.filter_nil, min_def]
    rw [h7]
    exact ⟨rfl, rfl, rfl⟩
  have h1 : waitAux [] 10 0 1 2 (by omega)
      = { found := none, sleeps := [2, 4, 8], attempts := 3 } := by
    unfold waitAux
    rw [dif_pos (by norm_num : (1 : Int) < 10)]
    norm_num [getAvailableKey, sleepDuration, getNextAvailableTime,
      List.filter_nil, min_def]
    rw [h3]
    exact ⟨rfl, rfl, rfl⟩
  have h0 : waitAux [] 10 0 0 1 (by omega)
      = { found := none, sleeps := [1, 2, 4, 8], attempts := 4 } := by
    unfold waitAux
    rw [dif_pos (by norm_num : (0 : Int) < 10)]
    norm_num [getAvailableKey, sleepDuration, getNextAvailableTime,
      List.filter_nil, min_def]
    rw [h1]
    exact ⟨rfl, rfl, rfl⟩
  have happ : waitForAvailableKey [] 10 0 = waitAux [] 10 0 0 1 (by omega) := rfl
  rw [happ, h0]

end Rotation
